import Mathlib

/-!
# QueryOptim front-end controller (`src/app.js`)

A shallow embedding of the `QueryOptimizer` class of `src/app.js` and proofs about it.

* JavaScript strings are sequences of UTF-16 code units (`JSString`), so that `length`,
  `split` and `trim` count what the JavaScript engine counts.
* The part of the page the class reads and writes is an explicit `State`; every method is a
  function on `State`.
* `setTimeout` registers a `Timer` carrying its due time and a `Callback` naming the closure
  of the source; the event loop is the function `step` over `Event`s.  A timer fires when the
  clock reaches its due time; of several timers the one due first fires first, and of timers
  due together the one registered first.
* Elements created or removed at run time carry a node identity (`nid`).
-/

namespace QueryOptim

/-! ## JavaScript strings -/

/-- A JavaScript string: the sequence of its UTF-16 code units. -/
abbrev JSString := List Nat

/-- The UTF-16 code units of one Unicode scalar value (a surrogate pair above the BMP). -/
def utf16Units (c : Char) : List Nat :=
  if c.toNat < 65536 then [c.toNat]
  else [55296 + (c.toNat - 65536) / 1024, 56320 + (c.toNat - 65536) % 1024]

/-- The JavaScript string written by a source literal. -/
def utf16 (s : String) : JSString :=
  s.toList.flatMap utf16Units

/-- Number to string conversion of a non-negative integer (`String(n)`, decimal digits). -/
def numToString (n : Nat) : JSString :=
  utf16 (Nat.repr n)

/-- The code unit of the line feed, the separator of `text.split('\n')`. -/
def newline : Nat := 10

/-- `String.prototype.split` with a separator of one code unit: the segments between the
occurrences of the separator; the empty string gives the one segment `""`. -/
def split (sep : Nat) : JSString → List JSString
  | [] => [[]]
  | c :: cs =>
    if c = sep then [] :: split sep cs
    else
      match split sep cs with
      | [] => [[c]]
      | seg :: segs => (c :: seg) :: segs

/-- The code units `String.prototype.trim` strips: ECMAScript WhiteSpace and
LineTerminator. -/
def isWhiteSpace (c : Nat) : Bool :=
  c = 9 || c = 10 || c = 11 || c = 12 || c = 13 || c = 32 || c = 160 || c = 5760 ||
  (8192 ≤ c && c ≤ 8202) || c = 8232 || c = 8233 || c = 8239 || c = 8287 ||
  c = 12288 || c = 65279

/-- `String.prototype.trim`: strips white space from both ends. -/
def trim (s : JSString) : JSString :=
  ((s.dropWhile isWhiteSpace).reverse.dropWhile isWhiteSpace).reverse

/-! ## The page -/

/-- `classList.remove(token)`. -/
def classRemove (token : JSString) (classList : List JSString) : List JSString :=
  classList.filter (fun c => c ≠ token)

/-- `classList.add(token)`. -/
def classAdd (token : JSString) (classList : List JSString) : List JSString :=
  if token ∈ classList then classList else classList ++ [token]

/-- The class token `active`. -/
def active : JSString := utf16 "active"

/-- The class token `line-number`. -/
def lineNumberClass : JSString := utf16 "line-number"

/-- A `.nav-item` element: its `data-view` attribute (absent: `none`) and class list. -/
structure NavItem where
  dataView : Option JSString
  classList : List JSString
deriving DecidableEq

/-- An element of the document that `getElementById` can return: its `id` attribute and
class list.  The elements the constructor binds by id (`query-input`, `analyze-btn`, ...)
have ids that do not end in `-view` and are separate fields of `State`. -/
structure Elem where
  id : JSString
  classList : List JSString
deriving DecidableEq

/-- A node inside the `.editor-gutter` element. -/
structure GutterNode where
  nid : Nat
  classList : List JSString
  textContent : JSString
deriving DecidableEq

/-- A button: its `innerHTML` and `disabled` property. -/
structure Button where
  innerHTML : JSString
  disabled : Bool
deriving DecidableEq

/-- A metric element: its `textContent` and `style.transform`. -/
structure MetricEl where
  textContent : JSString
  transform : JSString
deriving DecidableEq

/-- The four metric elements bound by `initializeElements`. -/
inductive MetricId
  | execTime
  | rowsScanned
  | bufferHits
  | costEstimate
deriving DecidableEq

/-- A `.code-block` element: the text of its `code` element and, of its `.copy-btn`, the
`innerHTML`, the `style.color` and the identity of the nodes the `innerHTML` stands for
(`btnContent`): every assignment to `innerHTML` replaces them by new nodes. -/
structure CodeBlock where
  code : JSString
  btnHTML : JSString
  btnColor : JSString
  btnContent : Nat
deriving DecidableEq

/-- The element a click on a copy button landed on (`e.target`): the button itself, or an
element inside it, one of the nodes `content`. -/
inductive ClickTarget
  | button
  | inside (content : Nat)
deriving DecidableEq

/-- The `type` argument of `showNotification`. -/
inductive Severity
  | info
  | success
  | warning
  | error
deriving DecidableEq

/-- The table `colors` of `showNotification`. -/
def colors : Severity → JSString
  | .success => utf16 "var(--accent-primary)"
  | .warning => utf16 "var(--accent-warning)"
  | .error => utf16 "var(--accent-error)"
  | .info => utf16 "var(--accent-secondary)"

/-- A notification element appended to `document.body`: of its `style.cssText` the two
declarations that depend on the severity (`border` colour, `color`) and the `animation`. -/
structure Notification where
  nid : Nat
  className : JSString
  textContent : JSString
  borderColor : JSString
  color : JSString
  animation : JSString
deriving DecidableEq

/-- The closures handed to `setTimeout`, each with the variables it captures. -/
inductive Callback
  | analysisDone
  | metricReveal (m : MetricId) (finalValue : JSString)
  | metricSettle (m : MetricId)
  | copyRevert (block : Nat) (originalHTML : JSString)
  | notifyFade (nid : Nat)
  | notifyRemove (nid : Nat)
deriving DecidableEq

/-- A pending timer: the id `setTimeout` returned, its due time (ms) and its callback. -/
structure Timer where
  tid : Nat
  due : Nat
  cb : Callback
deriving DecidableEq

/-- A pending `navigator.clipboard.writeText(code)` promise of a click on the copy button
of code block `block`, with the target of the click its `then` callback captures. -/
structure ClipboardWrite where
  block : Nat
  target : ClickTarget
  code : JSString
deriving DecidableEq

/-- The state of the page and of the event loop. -/
structure State where
  now : Nat
  nextTimerId : Nat
  timers : List Timer
  nextNodeId : Nat
  navItems : List NavItem
  doc : List Elem
  views : List Nat
  queryInput : JSString
  analyzeBtn : Button
  infoLines : Option JSString
  infoChars : Option JSString
  gutter : Option (List GutterNode)
  emptyResultsDisplay : JSString
  resultsContentDisplay : JSString
  execTime : MetricEl
  rowsScanned : MetricEl
  bufferHits : MetricEl
  costEstimate : MetricEl
  optimizedQuery : JSString
  planTree : JSString
  codeBlocks : List CodeBlock
  clipboardWrites : List ClipboardWrite
  clipboard : JSString
  notifications : List Notification
deriving DecidableEq

/-- `setTimeout(cb, delay)`: registers a timer due `delay` ms from now. -/
def setTimeout (cb : Callback) (delay : Nat) (s : State) : State :=
  { s with
    timers := s.timers ++ [{ tid := s.nextTimerId, due := s.now + delay, cb := cb }]
    nextTimerId := s.nextTimerId + 1 }

/-- Applies `f` to the element at position `i` of a list (nothing when there is none). -/
def updateAt {α : Type} (f : α → α) : Nat → List α → List α
  | _, [] => []
  | 0, a :: as => f a :: as
  | i + 1, a :: as => a :: updateAt f i as

/-! ## Notifications -/

/-- `showNotification(message, type)`: creates the notification element, appends it to
`document.body` and schedules its exit animation 3000 ms later. -/
def showNotification (message : JSString) (type : Severity) (s : State) : State :=
  let notification : Notification :=
    { nid := s.nextNodeId
      className := utf16 "notification"
      textContent := message
      borderColor := colors type
      color := colors type
      animation := utf16 "slideInRight 0.3s ease-out" }
  setTimeout (.notifyFade notification.nid) 3000
    { s with
      nextNodeId := s.nextNodeId + 1
      notifications := s.notifications ++ [notification] }

/-- The outer timer of `showNotification`: starts the exit animation of the notification
and schedules its removal 300 ms later. -/
def notifyFade (nid : Nat) (s : State) : State :=
  setTimeout (.notifyRemove nid) 300
    { s with
      notifications := s.notifications.map (fun n =>
        if n.nid = nid then { n with animation := utf16 "slideOutRight 0.3s ease-out" }
        else n) }

/-- The inner timer of `showNotification`: `notification.remove()`. -/
def notifyRemove (nid : Nat) (s : State) : State :=
  { s with notifications := s.notifications.filter (fun n => n.nid ≠ nid) }

/-! ## Query statistics and the line-number gutter -/

/-- A node matched by the selector `.line-number`. -/
def isLineNumber (nd : GutterNode) : Bool :=
  decide (lineNumberClass ∈ nd.classList)

/-- `gutter.querySelectorAll('.line-number')`: a static list, in document order. -/
def lineNumbers (gutter : List GutterNode) : List GutterNode :=
  gutter.filter isLineNumber

/-- The body of the first loop of `updateLineNumbers`: creates the marker `i` and appends it
to the gutter.  The pair is the gutter and the next fresh node identity. -/
def appendLineNumber (g : List GutterNode × Nat) (i : Nat) : List GutterNode × Nat :=
  (g.1 ++ [{ nid := g.2, classList := [lineNumberClass], textContent := numToString i }],
    g.2 + 1)

/-- The body of the second loop of `updateLineNumbers`: `lineNumbers[i].remove()`, where
`lineNumbers` is the static list taken before the loop.  The loop only visits
`i < lineNumbers.length`, so the entry exists. -/
def removeLineNumber (snapshot : List GutterNode) (g : List GutterNode) (i : Nat) :
    List GutterNode :=
  match snapshot[i]? with
  | some nd => g.filter (fun x => x.nid ≠ nd.nid)
  | none => g

/-- `updateLineNumbers(count)`.  The loop `for (i = currentCount + 1; i <= count; i++)` is
the fold over `currentCount + 1, ..., count`, the loop
`for (i = count; i < currentCount; i++)` the fold over `count, ..., currentCount - 1`. -/
def updateLineNumbers (count : Nat) (s : State) : State :=
  match s.gutter with
  | none => s
  | some gutter =>
    let currentCount := (lineNumbers gutter).length
    if count > currentCount then
      let r := (List.range' (currentCount + 1) (count - currentCount)).foldl
        appendLineNumber (gutter, s.nextNodeId)
      { s with gutter := some r.1, nextNodeId := r.2 }
    else if count < currentCount then
      let snapshot := lineNumbers gutter
      { s with
        gutter := some ((List.range' count (currentCount - count)).foldl
          (removeLineNumber snapshot) gutter) }
    else s

/-- `updateQueryStats()`: publishes the line and character counts of the input to the two
`.info-value` elements (each only when `querySelector` finds it) and reconciles the
gutter. -/
def updateQueryStats (s : State) : State :=
  let text := s.queryInput
  let lines := (split newline text).length
  let chars := text.length
  updateLineNumbers lines
    { s with
      infoLines := s.infoLines.map (fun _ => numToString lines)
      infoChars := s.infoChars.map (fun _ => numToString chars) }

/-! ## Navigation -/

/-- The value of a template substitution of a `dataset` entry: an absent attribute reads
`undefined`. -/
def interpolate : Option JSString → JSString
  | some v => v
  | none => utf16 "undefined"

/-- `document.getElementById(id)`: the position of the first element with that id. -/
def getElementById (id : JSString) : List Elem → Option Nat
  | [] => none
  | e :: es => if e.id = id then some 0 else (getElementById id es).map (fun j => j + 1)

/-- `item.classList.remove('active')` on a navigation item. -/
def NavItem.deactivate (item : NavItem) : NavItem :=
  { item with classList := classRemove active item.classList }

/-- `item.classList.add('active')` on a navigation item. -/
def NavItem.activate (item : NavItem) : NavItem :=
  { item with classList := classAdd active item.classList }

/-- `view.classList.remove('active')` on a document element. -/
def Elem.deactivate (e : Elem) : Elem :=
  { e with classList := classRemove active e.classList }

/-- `view.classList.add('active')` on a document element. -/
def Elem.activate (e : Elem) : Elem :=
  { e with classList := classAdd active e.classList }

/-- The exceptions the modelled code can raise. -/
inductive JSError
  | typeError
deriving DecidableEq

/-- `handleNavigation(e)` for a click on navigation item `i` (`e.currentTarget`).  Returns
the state the handler leaves behind and the exception it raised, if any: reading
`classList` of the `null` that `getElementById` returns for an unknown id is a
`TypeError`, raised after the statements before it have run. -/
def handleNavigation (i : Nat) (s : State) : State × Option JSError :=
  match s.navItems[i]? with
  | none => (s, none)
  | some item =>
    let targetView := item.dataView
    let navItems := updateAt NavItem.activate i (s.navItems.map NavItem.deactivate)
    let doc := s.views.foldl (fun d v => updateAt Elem.deactivate v d) s.doc
    match getElementById (interpolate targetView ++ utf16 "-view") doc with
    | none => ({ s with navItems := navItems, doc := doc }, some .typeError)
    | some j =>
      ({ s with navItems := navItems, doc := updateAt Elem.activate j doc }, none)

/-! ## Analysis -/

/-- Reads the metric element `m`. -/
def getMetric (m : MetricId) (s : State) : MetricEl :=
  match m with
  | .execTime => s.execTime
  | .rowsScanned => s.rowsScanned
  | .bufferHits => s.bufferHits
  | .costEstimate => s.costEstimate

/-- Writes the metric element `m`. -/
def setMetric (m : MetricId) (el : MetricEl) (s : State) : State :=
  match m with
  | .execTime => { s with execTime := el }
  | .rowsScanned => { s with rowsScanned := el }
  | .bufferHits => { s with bufferHits := el }
  | .costEstimate => { s with costEstimate := el }

/-- `animateMetric(element, finalValue)`: shows the placeholder and schedules the final
value 300 ms later. -/
def animateMetric (m : MetricId) (finalValue : JSString) (s : State) : State :=
  setTimeout (.metricReveal m finalValue) 300
    (setMetric m { getMetric m s with textContent := utf16 "--" } s)

/-- The outer timer of `animateMetric`. -/
def metricReveal (m : MetricId) (finalValue : JSString) (s : State) : State :=
  setTimeout (.metricSettle m) 200
    (setMetric m { textContent := finalValue, transform := utf16 "scale(1.1)" } s)

/-- The inner timer of `animateMetric`. -/
def metricSettle (m : MetricId) (s : State) : State :=
  setMetric m { getMetric m s with transform := utf16 "scale(1)" } s

/-- The text of the template of `generateOptimizedQuery` before `${originalQuery}`. -/
def optimizedHeader : JSString :=
  utf16 "-- Optimized with indexes\n-- Estimated improvement: 45% faster\n\n"

/-- The text of the template of `generateOptimizedQuery` after `${originalQuery}`. -/
def indexSuggestions : JSString :=
  utf16 (String.join [
    "\n\n-- Recommended indexes:\n",
    "-- CREATE INDEX idx_users_created_at ON users(created_at);\n",
    "-- CREATE INDEX idx_orders_user_id ON orders(user_id);"])

/-- `generateOptimizedQuery(originalQuery)`. -/
def generateOptimizedQuery (originalQuery : JSString) : JSString :=
  optimizedHeader ++ originalQuery ++ indexSuggestions

/-- The markup of `renderQueryPlan`. -/
def planHTML : JSString :=
  utf16 (String.join [
    "\n",
    "            <div class=\"plan-node\" style=\"animation: fadeIn 0.6s ease-out\">\n",
    "                <div class=\"plan-node-header\" style=\"padding: 12px; background: var(--bg-tertiary); border: 1px solid var(--border-primary); border-radius: 6px; margin-bottom: 16px;\">\n",
    "                    <div style=\"display: flex; justify-content: space-between; align-items: center;\">\n",
    "                        <span style=\"font-weight: 700; color: var(--accent-primary);\">→ Limit</span>\n",
    "                        <span style=\"font-size: 12px; color: var(--text-muted);\">Cost: 1,247 | Rows: 100</span>\n",
    "                    </div>\n",
    "                </div>\n",
    "                \n",
    "                <div style=\"margin-left: 24px; border-left: 2px solid var(--border-primary); padding-left: 16px;\">\n",
    "                    <div class=\"plan-node-header\" style=\"padding: 12px; background: var(--bg-tertiary); border: 1px solid var(--border-primary); border-radius: 6px; margin-bottom: 16px; animation: fadeIn 0.6s ease-out 0.1s both;\">\n",
    "                        <div style=\"display: flex; justify-content: space-between; align-items: center;\">\n",
    "                            <span style=\"font-weight: 700; color: var(--accent-secondary);\">→ Sort</span>\n",
    "                            <span style=\"font-size: 12px; color: var(--text-muted);\">Cost: 1,189 | Rows: 2,340</span>\n",
    "                        </div>\n",
    "                        <div style=\"font-size: 12px; color: var(--text-secondary); margin-top: 4px;\">Sort Key: order_count DESC</div>\n",
    "                    </div>\n",
    "                    \n",
    "                    <div style=\"margin-left: 24px; border-left: 2px solid var(--border-primary); padding-left: 16px;\">\n",
    "                        <div class=\"plan-node-header\" style=\"padding: 12px; background: var(--bg-tertiary); border: 1px solid var(--border-primary); border-radius: 6px; margin-bottom: 16px; animation: fadeIn 0.6s ease-out 0.2s both;\">\n",
    "                            <div style=\"display: flex; justify-content: space-between; align-items: center;\">\n",
    "                                <span style=\"font-weight: 700; color: var(--accent-warning);\">→ Hash Aggregate</span>\n",
    "                                <span style=\"font-size: 12px; color: var(--text-muted);\">Cost: 987 | Rows: 2,340</span>\n",
    "                            </div>\n",
    "                            <div style=\"font-size: 12px; color: var(--text-secondary); margin-top: 4px;\">Group Key: users.id, users.name</div>\n",
    "                        </div>\n",
    "                        \n",
    "                        <div style=\"margin-left: 24px; border-left: 2px solid var(--border-primary); padding-left: 16px;\">\n",
    "                            <div class=\"plan-node-header\" style=\"padding: 12px; background: var(--bg-tertiary); border: 1px solid var(--border-primary); border-radius: 6px; margin-bottom: 16px; animation: fadeIn 0.6s ease-out 0.3s both;\">\n",
    "                                <div style=\"display: flex; justify-content: space-between; align-items: center;\">\n",
    "                                    <span style=\"font-weight: 700;\">→ Hash Left Join</span>\n",
    "                                    <span style=\"font-size: 12px; color: var(--text-muted);\">Cost: 756 | Rows: 45,890</span>\n",
    "                                </div>\n",
    "                                <div style=\"font-size: 12px; color: var(--text-secondary); margin-top: 4px;\">Hash Cond: (users.id = orders.user_id)</div>\n",
    "                            </div>\n",
    "                            \n",
    "                            <div style=\"margin-left: 24px; display: grid; gap: 12px;\">\n",
    "                                <div class=\"plan-node-header\" style=\"padding: 12px; background: var(--bg-tertiary); border: 1px solid var(--accent-error); border-radius: 6px; animation: fadeIn 0.6s ease-out 0.4s both;\">\n",
    "                                    <div style=\"display: flex; justify-content: space-between; align-items: center;\">\n",
    "                                        <span style=\"font-weight: 700; color: var(--accent-error);\">⚠ Seq Scan on users</span>\n",
    "                                        <span style=\"font-size: 12px; color: var(--text-muted);\">Cost: 523 | Rows: 2,340,000</span>\n",
    "                                    </div>\n",
    "                                    <div style=\"font-size: 12px; color: var(--accent-error); margin-top: 4px;\">Filter: (created_at > '2024-01-01')</div>\n",
    "                                </div>\n",
    "                                \n",
    "                                <div class=\"plan-node-header\" style=\"padding: 12px; background: var(--bg-tertiary); border: 1px solid var(--border-primary); border-radius: 6px; animation: fadeIn 0.6s ease-out 0.5s both;\">\n",
    "                                    <div style=\"display: flex; justify-content: space-between; align-items: center;\">\n",
    "                                        <span style=\"font-weight: 700;\">→ Index Scan on orders</span>\n",
    "                                        <span style=\"font-size: 12px; color: var(--text-muted);\">Cost: 189 | Rows: 45,890</span>\n",
    "                                    </div>\n",
    "                                    <div style=\"font-size: 12px; color: var(--text-secondary); margin-top: 4px;\">Index: idx_orders_user_id</div>\n",
    "                                </div>\n",
    "                            </div>\n",
    "                        </div>\n",
    "                    </div>\n",
    "                </div>\n",
    "            </div>\n",
    "        "])

/-- `renderQueryPlan()`. -/
def renderQueryPlan (s : State) : State :=
  { s with planTree := planHTML }

/-- `displayResults()`. -/
def displayResults (s : State) : State :=
  let s := { s with
    emptyResultsDisplay := utf16 "none"
    resultsContentDisplay := utf16 "block" }
  let s := animateMetric .execTime (utf16 "142ms") s
  let s := animateMetric .rowsScanned (utf16 "2.3M") s
  let s := animateMetric .bufferHits (utf16 "95.2%") s
  let s := animateMetric .costEstimate (utf16 "1,247") s
  let query := s.queryInput
  let s := { s with optimizedQuery := generateOptimizedQuery query }
  renderQueryPlan s

/-- The `innerHTML` of the trigger while an analysis runs. -/
def analyzingLabel : JSString :=
  utf16 "<span class=\"btn-text\">Analyzing...</span>"

/-- The `innerHTML` the completion of an analysis gives the trigger. -/
def analyzeLabel : JSString :=
  utf16 "<span class=\"btn-text\">Analyze Query</span><span class=\"btn-arrow\">→</span>"

/-- The callback of the 1500 ms timer of `analyzeQuery`. -/
def analysisDone (s : State) : State :=
  let s := displayResults s
  let s := { s with analyzeBtn := { s.analyzeBtn with innerHTML := analyzeLabel } }
  let s := { s with analyzeBtn := { s.analyzeBtn with disabled := false } }
  showNotification (utf16 "Analysis complete!") .success s

/-- `analyzeQuery()`. -/
def analyzeQuery (s : State) : State :=
  let query := trim s.queryInput
  if query = [] then
    showNotification (utf16 "Please enter a SQL query") .warning s
  else
    let s := { s with analyzeBtn := { s.analyzeBtn with innerHTML := analyzingLabel } }
    let s := { s with analyzeBtn := { s.analyzeBtn with disabled := true } }
    setTimeout .analysisDone 1500 s

/-! ## Clipboard -/

/-- The `innerHTML` of a copy button after a successful copy. -/
def confirmationGlyph : JSString := utf16 "<span>✓</span>"

/-- `copyToClipboard(e)` for a click on the copy button of code block `b`, on the button
itself or (`inside`) on an element of its present content: reads the code and starts the
asynchronous clipboard write. -/
def copyToClipboard (b : Nat) (inside : Bool) (s : State) : State :=
  match s.codeBlocks[b]? with
  | none => s
  | some codeBlock =>
    let target := if inside then ClickTarget.inside codeBlock.btnContent else ClickTarget.button
    { s with
      clipboardWrites := s.clipboardWrites ++
        [{ block := b, target := target, code := codeBlock.code }] }

/-- `e.target.closest('.copy-btn')` finds the button: the target is the button itself or
is still inside it.  An element of a content that an assignment to `innerHTML` has
replaced is detached and has no such ancestor. -/
def ClickTarget.attached (target : ClickTarget) (codeBlock : CodeBlock) : Bool :=
  match target with
  | .button => true
  | .inside content => decide (content = codeBlock.btnContent)

/-- The `then` callback of `copyToClipboard`, run when the write for a click on `target`
in block `b` succeeded.  `closest` returns `null` for a detached target, and reading
`innerHTML` of `null` is a `TypeError`, raised before anything is changed. -/
def copySucceeded (b : Nat) (target : ClickTarget) (s : State) : State × Option JSError :=
  match s.codeBlocks[b]? with
  | none => (s, none)
  | some codeBlock =>
    if target.attached codeBlock then
      let originalHTML := codeBlock.btnHTML
      (setTimeout (.copyRevert b originalHTML) 2000
        { s with
          codeBlocks := updateAt (fun c =>
            { c with
              btnHTML := confirmationGlyph
              btnColor := utf16 "var(--accent-primary)"
              btnContent := c.btnContent + 1 })
            b s.codeBlocks }, none)
    else (s, some .typeError)

/-- The 2000 ms timer of `copyToClipboard`. -/
def copyRevert (b : Nat) (originalHTML : JSString) (s : State) : State :=
  { s with
    codeBlocks := updateAt (fun c =>
      { c with btnHTML := originalHTML, btnColor := [], btnContent := c.btnContent + 1 })
      b s.codeBlocks }

/-! ## The event loop -/

/-- Runs the closure a timer carries. -/
def runCallback (cb : Callback) (s : State) : State :=
  match cb with
  | .analysisDone => analysisDone s
  | .metricReveal m v => metricReveal m v s
  | .metricSettle m => metricSettle m s
  | .copyRevert b html => copyRevert b html s
  | .notifyFade nid => notifyFade nid s
  | .notifyRemove nid => notifyRemove nid s

/-- The timer that fires next: the one due first, and of those due together the one
registered first. -/
def earliest : List Timer → Option Timer
  | [] => none
  | t :: ts =>
    match earliest ts with
    | none => some t
    | some u => if t.due ≤ u.due then some t else some u

/-- The timer `t` leaves the queue, the clock having reached its due time. -/
def dequeue (t : Timer) (s : State) : State :=
  { s with now := max s.now t.due, timers := s.timers.erase t }

/-- The next timer fires: the clock reaches its due time and its callback runs. -/
def fireTimer (s : State) : State :=
  match earliest s.timers with
  | none => s
  | some t => runCallback t.cb (dequeue t s)

/-- Time passes for `ms` milliseconds, or until the next timer is due. -/
def elapse (ms : Nat) (s : State) : State :=
  match earliest s.timers with
  | none => { s with now := s.now + ms }
  | some t => { s with now := max s.now (min (s.now + ms) t.due) }

/-- A clipboard write settles: the promise of the `k`-th pending write is fulfilled
(`ok`) or rejected.  The source attaches no rejection handler, and an exception of the
`then` callback is reported and leaves the state it reached. -/
def clipboardSettled (k : Nat) (ok : Bool) (s : State) : State :=
  match s.clipboardWrites[k]? with
  | none => s
  | some w =>
    let s := { s with clipboardWrites := s.clipboardWrites.eraseIdx k }
    if ok then (copySucceeded w.block w.target { s with clipboard := w.code }).1 else s

/-- What can happen to the page. -/
inductive Event
  /-- A click on navigation item `i`. -/
  | navClick (i : Nat)
  /-- An `input` event on the query textarea, which now holds `text`. -/
  | input (text : JSString)
  /-- A click on the analyze button. -/
  | analyzeClick
  /-- A `keydown` event on the query textarea. -/
  | keydown (ctrlKey : Bool) (key : JSString)
  /-- A click on the copy button of code block `b`, on the button itself. -/
  | copyClick (b : Nat)
  /-- A click on the copy button of code block `b`, on an element inside the button. -/
  | copyClickInside (b : Nat)
  /-- The `k`-th pending clipboard write settles. -/
  | clipboardSettled (k : Nat) (ok : Bool)
  /-- A call of `showNotification` from any other caller. -/
  | notify (message : JSString) (type : Severity)
  /-- Time passes. -/
  | elapse (ms : Nat)
  /-- The next timer fires. -/
  | timerFires
deriving DecidableEq

/-- The listeners of `attachEventListeners`.  A disabled button dispatches no `click`
event; an exception a listener raises is reported and leaves the state it reached. -/
def step (s : State) (e : Event) : State :=
  match e with
  | .navClick i => (handleNavigation i s).1
  | .input text => updateQueryStats { s with queryInput := text }
  | .analyzeClick => if s.analyzeBtn.disabled then s else analyzeQuery s
  | .keydown ctrlKey key =>
    if ctrlKey && decide (key = utf16 "Enter") then analyzeQuery s else s
  | .copyClick b => copyToClipboard b false s
  | .copyClickInside b => copyToClipboard b true s
  | .clipboardSettled k ok => clipboardSettled k ok s
  | .notify message type => showNotification message type s
  | .elapse ms => elapse ms s
  | .timerFires => fireTimer s

/-- The state after a sequence of events. -/
def run (s : State) (es : List Event) : State :=
  es.foldl step s

/-! ## Observations used by the statements -/

/-- The values the line-number markers of a gutter show, in document order. -/
def markerTexts (gutter : List GutterNode) : List JSString :=
  (lineNumbers gutter).map (fun nd => nd.textContent)

/-- The marker values `1, ..., n`. -/
def oneTo (n : Nat) : List JSString :=
  (List.range' 1 n).map numToString

/-- The markers `a, ..., a + m - 1` with the node identities `id, ..., id + m - 1`. -/
def freshMarkers (id a m : Nat) : List GutterNode :=
  (List.range m).map (fun j =>
    { nid := id + j, classList := [lineNumberClass], textContent := numToString (a + j) })

/-- The pending completion timers of `analyzeQuery`: the analyses in flight. -/
def pendingAnalyses (s : State) : List Timer :=
  s.timers.filter (fun t => decide (t.cb = .analysisDone))

/-- The controller is idle: the trigger is enabled and no analysis is in flight. -/
def Idle (s : State) : Prop :=
  s.analyzeBtn.disabled = false ∧ pendingAnalyses s = []

instance (s : State) : Decidable (Idle s) := by
  unfold Idle; exact inferInstance

/-- The view at position `v` of the document is marked active. -/
def viewActive (s : State) (v : Nat) : Bool :=
  match s.doc[v]? with
  | some e => decide (active ∈ e.classList)
  | none => false

/-- The navigation item `m` is marked active. -/
def navActive (s : State) (m : Nat) : Bool :=
  match s.navItems[m]? with
  | some item => decide (active ∈ item.classList)
  | none => false

/-- The views marked active. -/
def activeViews (s : State) : List Nat :=
  s.views.filter (viewActive s)

/-- The navigation items marked active. -/
def activeNavItems (s : State) : List Nat :=
  (List.range s.navItems.length).filter (navActive s)

/-- The timer with id `tid` is pending. -/
def timerPending (tid : Nat) (s : State) : Prop :=
  ∃ t ∈ s.timers, t.tid = tid

/-- The notification with node identity `nid` is displayed. -/
def displayed (nid : Nat) (s : State) : Prop :=
  ∃ n ∈ s.notifications, n.nid = nid

/-- A gutter with the one marker `1`. -/
def demoGutter : List GutterNode :=
  [{ nid := 0, classList := [lineNumberClass], textContent := utf16 "1" }]

/-- A page to evaluate the code on: three navigation items, the third without a view, two
views, an empty query, one marker in the gutter, one code block. -/
def demoPage : State :=
  { now := 0
    nextTimerId := 1
    timers := []
    nextNodeId := 1
    navItems :=
      [ { dataView := some (utf16 "optimizer"), classList := [utf16 "nav-item", active] },
        { dataView := some (utf16 "history"), classList := [utf16 "nav-item"] },
        { dataView := some (utf16 "settings"), classList := [utf16 "nav-item"] } ]
    doc :=
      [ { id := utf16 "optimizer-view", classList := [utf16 "view", active] },
        { id := utf16 "history-view", classList := [utf16 "view"] } ]
    views := [0, 1]
    queryInput := []
    analyzeBtn := { innerHTML := analyzeLabel, disabled := false }
    infoLines := some (utf16 "1")
    infoChars := some (utf16 "0")
    gutter := some demoGutter
    emptyResultsDisplay := utf16 "flex"
    resultsContentDisplay := utf16 "none"
    execTime := { textContent := utf16 "--", transform := [] }
    rowsScanned := { textContent := utf16 "--", transform := [] }
    bufferHits := { textContent := utf16 "--", transform := [] }
    costEstimate := { textContent := utf16 "--", transform := [] }
    optimizedQuery := []
    planTree := []
    codeBlocks :=
      [{ code := utf16 "SELECT 1;", btnHTML := utf16 "Copy", btnColor := [], btnContent := 0 }]
    clipboardWrites := []
    clipboard := []
    notifications := [] }

/-- The notification element a timer callback refers to. -/
def Callback.node : Callback → Option Nat
  | .notifyFade nid => some nid
  | .notifyRemove nid => some nid
  | _ => none

/-- The bookkeeping of the event loop is consistent: no pending timer is overdue, timer ids
and node identities in use are below the next fresh ones. -/
def WellFormed (s : State) : Prop :=
  (∀ tm ∈ s.timers, s.now ≤ tm.due) ∧
  (∀ tm ∈ s.timers, tm.tid < s.nextTimerId) ∧
  (∀ tm ∈ s.timers, ∀ x ∈ tm.cb.node, x < s.nextNodeId) ∧
  (∀ n ∈ s.notifications, n.nid < s.nextNodeId)

instance (s : State) : Decidable (WellFormed s) := by
  unfold WellFormed; exact inferInstance

/-- Two states agree on the clock, the timers, the notifications and the trigger; node
identities may have been used up. -/
def SameCore (s s₂ : State) : Prop :=
  s₂.now = s.now ∧ s₂.timers = s.timers ∧ s₂.nextTimerId = s.nextTimerId ∧
  s.nextNodeId ≤ s₂.nextNodeId ∧ s₂.notifications = s.notifications ∧
  s₂.analyzeBtn = s.analyzeBtn

/-- The notification element `showNotification(message, type)` creates with node identity
`nid`. -/
def newNotification (nid : Nat) (message : JSString) (type : Severity) : Notification :=
  { nid := nid
    className := utf16 "notification"
    textContent := message
    borderColor := colors type
    color := colors type
    animation := utf16 "slideInRight 0.3s ease-out" }

/-- The event calls `analyzeQuery`: Ctrl+Enter in the query input, or a click on the
trigger while it is enabled. -/
def submits (s : State) : Event → Bool
  | .keydown ctrlKey key => ctrlKey && decide (key = utf16 "Enter")
  | .analyzeClick => !s.analyzeBtn.disabled
  | _ => false

/-- What an event other than the firing of a timer does to the clock, the timers, the
notifications and the trigger. -/
inductive EventShape (e : Event) (s s₂ : State) : Prop
  /-- Nothing. -/
  | quiet (h : SameCore s s₂)
  /-- A call of `showNotification`. -/
  | notified (message : JSString) (type : Severity) (h : s₂ = showNotification message type s)
  /-- A non-blank query was submitted. -/
  | submitted (hsub : submits s e = true) (h : s₂ = setTimeout .analysisDone 1500
      { s with analyzeBtn := { innerHTML := analyzingLabel, disabled := true } })
  /-- A clipboard write succeeded. -/
  | copied (b : Nat) (html : JSString) (s₁ : State) (h₁ : SameCore s s₁)
      (h : s₂ = setTimeout (.copyRevert b html) 2000 s₁)
  /-- Time passed. -/
  | elapsed (ms : Nat) (h : s₂ = elapse ms s)

/-- What the callback of a timer does to the clock, the timers, the notifications and the
trigger. -/
inductive CallbackShape (cb : Callback) (s s₂ : State) : Prop
  /-- The callbacks `metricSettle` and `copyRevert`. -/
  | quiet (hcb : cb.node = none) (hne : cb ≠ .analysisDone) (h : SameCore s s₂)
  /-- The callback `metricReveal`. -/
  | revealed (m : MetricId) (s₁ : State) (hcb : cb.node = none) (hne : cb ≠ .analysisDone)
      (h₁ : SameCore s s₁) (h : s₂ = setTimeout (.metricSettle m) 200 s₁)
  /-- The completion of an analysis. -/
  | completed (hcb : cb = .analysisDone) (s₁ : State) (h₁ : s₂
      = showNotification (utf16 "Analysis complete!") .success s₁)
      (hnow : s₁.now = s.now)
      (htimers : s₁.timers = s.timers ++
        [ { tid := s.nextTimerId, due := s.now + 300,
            cb := .metricReveal .execTime (utf16 "142ms") },
          { tid := s.nextTimerId + 1, due := s.now + 300,
            cb := .metricReveal .rowsScanned (utf16 "2.3M") },
          { tid := s.nextTimerId + 2, due := s.now + 300,
            cb := .metricReveal .bufferHits (utf16 "95.2%") },
          { tid := s.nextTimerId + 3, due := s.now + 300,
            cb := .metricReveal .costEstimate (utf16 "1,247") } ])
      (hid : s₁.nextTimerId = s.nextTimerId + 4)
      (hnode : s₁.nextNodeId = s.nextNodeId)
      (hnotif : s₁.notifications = s.notifications)
      (hbtn : s₁.analyzeBtn = { innerHTML := analyzeLabel, disabled := false })
  /-- The exit animation of notification `nid` starts. -/
  | faded (nid : Nat) (hcb : cb = .notifyFade nid) (h : s₂ = notifyFade nid s)
  /-- The notification `nid` is removed. -/
  | removed (nid : Nat) (hcb : cb = .notifyRemove nid) (h : s₂ = notifyRemove nid s)

/-- The timer refers to the notification `nid`. -/
def refersTo (nid : Nat) (tm : Timer) : Bool :=
  decide (tm.cb.node = some nid)

/-- The life of the notification `nid` created at time `t`: displayed with its exit timer
due at `t + 3000` pending, then displayed with its removal timer due at `t + 3300` pending,
then removed, the clock having reached `t + 3300`. -/
def Lifecycle (nid t : Nat) (s : State) : Prop :=
  nid < s.nextNodeId ∧
  ((displayed nid s ∧ ∃ tm, s.timers.filter (refersTo nid) = [tm] ∧
      tm.cb = .notifyFade nid ∧ tm.due = t + 3000) ∨
   (displayed nid s ∧ ∃ tm, s.timers.filter (refersTo nid) = [tm] ∧
      tm.cb = .notifyRemove nid ∧ tm.due = t + 3300) ∨
   (¬ displayed nid s ∧ s.timers.filter (refersTo nid) = [] ∧ t + 3300 ≤ s.now))

/-- A transition that does not concern the notification `nid`. -/
def Unrelated (nid : Nat) (s s₂ : State) : Prop :=
  (displayed nid s₂ ↔ displayed nid s) ∧
  s₂.timers.filter (refersTo nid) = s.timers.filter (refersTo nid) ∧
  s.now ≤ s₂.now ∧ s.nextNodeId ≤ s₂.nextNodeId

/-- The number of timer firings a callback stands for: its own and those of the timers it
will register. -/
def Callback.weight : Callback → Nat
  | .analysisDone => 11
  | .metricReveal _ _ => 2
  | .notifyFade _ => 2
  | _ => 1

/-- The number of timer firings after which no timer is pending. -/
def pendingWork (s : State) : Nat :=
  (s.timers.map (fun t => t.cb.weight)).sum

/-- The events in which every pending timer fires, and every timer these register. -/
def drain (s : State) : List Event :=
  List.replicate (pendingWork s) .timerFires

/-- The analysis whose completion timer has id `tid` and is due at `D` is in flight, first
of the analyses in flight: the trigger is disabled and shows the working label, and the
analyses submitted later, `rest`, are due no earlier. -/
def Analyzing (tid D : Nat) (rest : List Timer) (s : State) : Prop :=
  s.analyzeBtn = { innerHTML := analyzingLabel, disabled := true } ∧
  tid < s.nextTimerId ∧ D ≤ s.now + 1500 ∧
  pendingAnalyses s = { tid := tid, due := D, cb := .analysisDone } :: rest ∧
  (∀ r ∈ rest, D ≤ r.due ∧ r.tid ≠ tid) ∧
  (∀ u ∈ s.timers, u.tid = tid → u.cb = .analysisDone)

/-- The timer with id `tid` has fired. -/
def Completed (tid : Nat) (s : State) : Prop :=
  tid < s.nextTimerId ∧ ∀ u ∈ s.timers, u.tid ≠ tid

/-- A transition registers timers under fresh ids only and does not turn the clock back. -/
def Fresh (s s₂ : State) : Prop :=
  s.nextTimerId ≤ s₂.nextTimerId ∧ s.now ≤ s₂.now ∧
  ∀ u ∈ s₂.timers, u ∈ s.timers ∨ s.nextTimerId ≤ u.tid

/-- A transition that leaves the trigger and the analyses in flight as they are. -/
def Bystander (s s₂ : State) : Prop :=
  Fresh s s₂ ∧ s₂.analyzeBtn = s.analyzeBtn ∧ pendingAnalyses s₂ = pendingAnalyses s

/-- The event is Ctrl+Enter in the query input. -/
def isCtrlEnter : Event → Bool
  | .keydown ctrlKey key => ctrlKey && decide (key = utf16 "Enter")
  | _ => false

/-! ## Properties of the string functions -/

theorem split_ne_nil (sep : Nat) (t : JSString) : split sep t ≠ [] := by
  induction t with
  | nil => simp [split]
  | cons c cs ih =>
    unfold split
    split_ifs
    · simp
    · cases h : split sep cs <;> simp

theorem split_length (sep : Nat) (t : JSString) :
    (split sep t).length = t.count sep + 1 := by
  induction t with
  | nil => simp [split]
  | cons c cs ih =>
    unfold split
    by_cases hc : c = sep
    · simp [hc, ih]
    · have hne := split_ne_nil sep cs
      cases h : split sep cs with
      | nil => exact absurd h hne
      | cons seg segs =>
        rw [h] at ih
        simp only [hc, if_false]
        rw [List.count_cons_of_ne (fun h => hc h.symm)]
        simpa using ih

theorem trim_eq_nil_of_blank (t : JSString) (h : ∀ c ∈ t, isWhiteSpace c = true) :
    trim t = [] := by
  have : t.dropWhile isWhiteSpace = [] := List.dropWhile_eq_nil_iff.mpr h
  simp [trim, this]

/-! ## Query statistics -/

theorem updateLineNumbers_infoLines (n : Nat) (s : State) :
    (updateLineNumbers n s).infoLines = s.infoLines ∧
    (updateLineNumbers n s).infoChars = s.infoChars := by
  unfold updateLineNumbers
  cases s.gutter with
  | none => simp
  | some g =>
    simp only
    split_ifs <;> simp

/-- C2: for every input text, `updateQueryStats` writes to the line display (when the page
has it) the number of newline-delimited segments of the text, which is one more than the
number of newline code units and at least 1, and to the character display the length of
the text; `SELECT 1` gives 1 and 8, and a text of three lines gives 3. -/
theorem updateQueryStats_counts (s : State) :
    (updateQueryStats s).infoLines
        = s.infoLines.map (fun _ => numToString (split newline s.queryInput).length) ∧
    (updateQueryStats s).infoChars
        = s.infoChars.map (fun _ => numToString s.queryInput.length) ∧
    (split newline s.queryInput).length = s.queryInput.count newline + 1 ∧
    1 ≤ (split newline s.queryInput).length ∧
    (split newline []).length = 1 ∧
    (∀ lineEl charEl,
      (updateQueryStats
        { s with
          queryInput := utf16 "SELECT 1"
          infoLines := some lineEl
          infoChars := some charEl }).infoLines = some (utf16 "1") ∧
      (updateQueryStats
        { s with
          queryInput := utf16 "SELECT 1"
          infoLines := some lineEl
          infoChars := some charEl }).infoChars = some (utf16 "8") ∧
      (updateQueryStats
        { s with
          queryInput := utf16 "a\nb\nc"
          infoLines := some lineEl
          infoChars := some charEl }).infoLines = some (utf16 "3")) := by
  have key : ∀ s : State,
      (updateQueryStats s).infoLines
          = s.infoLines.map (fun _ => numToString (split newline s.queryInput).length) ∧
      (updateQueryStats s).infoChars
          = s.infoChars.map (fun _ => numToString s.queryInput.length) := by
    intro s
    constructor <;> simp [updateQueryStats, updateLineNumbers_infoLines]
  refine ⟨(key s).1, (key s).2, split_length _ _, ?_, by decide, ?_⟩
  · rw [split_length]; omega
  · intro lineEl charEl
    refine ⟨?_, ?_, ?_⟩
    · rw [(key _).1]
      exact congrArg some (by decide : numToString (split newline (utf16 "SELECT 1")).length = _)
    · rw [(key _).2]
      exact congrArg some (by decide : numToString (utf16 "SELECT 1").length = _)
    · rw [(key _).1]
      exact congrArg some (by decide : numToString (split newline (utf16 "a\nb\nc")).length = _)

/-! ## The line-number gutter -/

theorem foldl_appendLineNumber (m a : Nat) (g : List GutterNode) (id : Nat) :
    (List.range' a m).foldl appendLineNumber (g, id) = (g ++ freshMarkers id a m, id + m) := by
  induction m with
  | zero => simp [freshMarkers]
  | succ m ih =>
    rw [List.range'_concat, List.foldl_append, ih]
    simp [appendLineNumber, freshMarkers, List.range_succ, Nat.add_assoc]

theorem lineNumbers_freshMarkers (id a m : Nat) :
    lineNumbers (freshMarkers id a m) = freshMarkers id a m := by
  unfold lineNumbers
  rw [List.filter_eq_self]
  intro x hx
  simp only [freshMarkers, List.mem_map] at hx
  obtain ⟨j, -, rfl⟩ := hx
  simp [isLineNumber]

theorem markerTexts_append_fresh (g : List GutterNode) (id k m : Nat)
    (hk : markerTexts g = oneTo k) :
    markerTexts (g ++ freshMarkers id (k + 1) m) = oneTo (k + m) := by
  unfold markerTexts at *
  unfold lineNumbers at *
  rw [List.filter_append, List.map_append, hk]
  have := lineNumbers_freshMarkers id (k + 1) m
  unfold lineNumbers at this
  rw [this]
  unfold oneTo freshMarkers
  rw [Nat.add_comm k m, ← List.range'_append 1 k m 1, List.map_append]
  congr 1
  rw [List.range'_eq_map_range]
  simp [Function.comp_def, Nat.add_comm, Nat.add_left_comm]

theorem foldl_removeLineNumber (snap : List GutterNode) (m a : Nat) (g : List GutterNode)
    (h : a + m ≤ snap.length) :
    (List.range' a m).foldl (removeLineNumber snap) g
      = g.filter (fun x => decide (x.nid ∉ ((snap.drop a).take m).map (fun nd => nd.nid))) := by
  induction m generalizing a g with
  | zero => simp
  | succ m ih =>
    have ha : a < snap.length := by omega
    rw [List.range'_succ, List.foldl_cons, ih (a + 1) _ (by omega)]
    have hd : snap.drop a = snap[a] :: snap.drop (a + 1) := by
      simp
    have hget : snap[a]? = some snap[a] := by simp [ha]
    simp only [removeLineNumber, hget, hd, List.take_succ_cons, List.map_cons,
      List.filter_filter]
    congr 1
    funext x
    simp [and_comm]

theorem lineNumbers_after_remove (g : List GutterNode) (n : Nat)
    (hid : (g.map (fun nd => nd.nid)).Nodup) :
    lineNumbers (g.filter (fun x =>
        decide (x.nid ∉ ((lineNumbers g).drop n).map (fun nd => nd.nid))))
      = (lineNumbers g).take n := by
  have hsub : List.Sublist ((lineNumbers g).map (fun nd => nd.nid)) (g.map (fun nd => nd.nid)) :=
    (List.filter_sublist g).map _
  have hnd : ((lineNumbers g).map (fun nd => nd.nid)).Nodup := hid.sublist hsub
  generalize hs : lineNumbers g = snap at hnd
  have hcomm : lineNumbers (g.filter (fun x =>
        decide (x.nid ∉ (snap.drop n).map (fun nd => nd.nid))))
      = snap.filter (fun x => decide (x.nid ∉ (snap.drop n).map (fun nd => nd.nid))) := by
    rw [← hs]
    unfold lineNumbers
    rw [List.filter_filter, List.filter_filter]
    congr 1
    funext x
    exact Bool.and_comm _ _
  rw [hcomm]
  conv_lhs => rw [← List.take_append_drop n snap]
  rw [← List.take_append_drop n snap, List.map_append, List.nodup_append] at hnd
  obtain ⟨-, -, hdis⟩ := hnd
  rw [List.filter_append]
  have h1 : (snap.take n).filter (fun x =>
      decide (x.nid ∉ (snap.drop n).map (fun nd => nd.nid))) = snap.take n := by
    rw [List.filter_eq_self]
    intro x hx
    have : x.nid ∈ (snap.take n).map (fun nd => nd.nid) := List.mem_map_of_mem _ hx
    simpa using hdis this
  have h2 : (snap.drop n).filter (fun x =>
      decide (x.nid ∉ (snap.drop n).map (fun nd => nd.nid))) = [] := by
    rw [List.filter_eq_nil_iff]
    intro x hx
    have : x.nid ∈ (snap.drop n).map (fun nd => nd.nid) := List.mem_map_of_mem _ hx
    simpa using this
  simp only [List.take_append_drop] at h1 h2 ⊢
  rw [h1, h2, List.append_nil]

theorem oneTo_length (n : Nat) : (oneTo n).length = n := by simp [oneTo]

theorem oneTo_take (k n : Nat) (h : n ≤ k) : (oneTo k).take n = oneTo n := by
  unfold oneTo
  rw [← List.map_take]
  congr 1
  obtain ⟨d, rfl⟩ := Nat.exists_eq_add_of_le h
  rw [Nat.add_comm n d, ← List.range'_append 1 n d 1]
  exact List.take_left' (by simp)

theorem markerTexts_length (g : List GutterNode) (k : Nat) (hk : markerTexts g = oneTo k) :
    (lineNumbers g).length = k := by
  have := congrArg List.length hk
  simpa [markerTexts, oneTo_length] using this

/-- C1: when the markers of the gutter are `1, ..., k`, after `updateLineNumbers(n)` they
are `1, ..., n`, exactly `n` of them: for `n > k` the markers `k+1, ..., n` were appended,
for `n < k` the last `k - n` markers were removed, for `n = k` the gutter is unchanged. -/
theorem updateLineNumbers_reconciles (s : State) (g : List GutterNode) (k n : Nat)
    (hg : s.gutter = some g) (hid : (g.map (fun nd => nd.nid)).Nodup)
    (hk : markerTexts g = oneTo k) :
    ∃ g₂, (updateLineNumbers n s).gutter = some g₂ ∧
      markerTexts g₂ = oneTo n ∧ (lineNumbers g₂).length = n ∧
      (k < n → g₂ = g ++ freshMarkers s.nextNodeId (k + 1) (n - k)) ∧
      (n < k → g₂ = g.filter (fun x =>
        decide (x.nid ∉ ((lineNumbers g).drop n).map (fun nd => nd.nid)))) ∧
      (n = k → g₂ = g) := by
  have hlen := markerTexts_length g k hk
  rcases Nat.lt_trichotomy k n with hlt | heq | hgt
  · refine ⟨g ++ freshMarkers s.nextNodeId (k + 1) (n - k), ?_, ?_, ?_, fun _ => rfl,
      fun h => absurd h (by omega), fun h => absurd h (by omega)⟩
    · simp [updateLineNumbers, hg, hlen, hlt, foldl_appendLineNumber]
    · have := markerTexts_append_fresh g s.nextNodeId k (n - k) hk
      rwa [Nat.add_sub_cancel' hlt.le] at this
    · have := markerTexts_append_fresh g s.nextNodeId k (n - k) hk
      rw [Nat.add_sub_cancel' hlt.le] at this
      exact markerTexts_length _ n this
  · subst heq
    refine ⟨g, ?_, hk, hlen, fun h => absurd h (by omega), fun h => absurd h (by omega),
      fun _ => rfl⟩
    simp [updateLineNumbers, hg, hlen]
  · have hrem : (List.range' n (k - n)).foldl (removeLineNumber (lineNumbers g)) g
        = g.filter (fun x =>
          decide (x.nid ∉ ((lineNumbers g).drop n).map (fun nd => nd.nid))) := by
      rw [foldl_removeLineNumber _ _ _ _ (by omega)]
      have : ((lineNumbers g).drop n).take (k - n) = (lineNumbers g).drop n := by
        apply List.take_of_length_le
        simp [hlen]
      rw [this]
    have hmark : markerTexts (g.filter (fun x =>
          decide (x.nid ∉ ((lineNumbers g).drop n).map (fun nd => nd.nid)))) = oneTo n := by
      unfold markerTexts
      rw [lineNumbers_after_remove g n hid, List.map_take]
      have : (lineNumbers g).map (fun nd => nd.textContent) = oneTo k := hk
      rw [this, oneTo_take k n hgt.le]
    refine ⟨_, ?_, hmark, markerTexts_length _ n hmark, fun h => absurd h (by omega),
      fun _ => rfl, fun h => absurd h (by omega)⟩
    have h1 : ¬ n > k := by omega
    simp [updateLineNumbers, hg, hlen, h1, hgt, hrem]

theorem updateLineNumbers_reconciles_witness :
    demoPage.gutter = some demoGutter ∧
    ∃ g₂, (updateLineNumbers 3 demoPage).gutter = some g₂ ∧
      markerTexts g₂ = oneTo 3 ∧ (lineNumbers g₂).length = 3 ∧
      (1 < 3 → g₂ = demoGutter ++ freshMarkers demoPage.nextNodeId (1 + 1) (3 - 1)) ∧
      (3 < 1 → g₂ = demoGutter.filter (fun x =>
        decide (x.nid ∉ ((lineNumbers demoGutter).drop 3).map (fun nd => nd.nid)))) ∧
      (3 = 1 → g₂ = demoGutter) :=
  ⟨rfl, updateLineNumbers_reconciles demoPage demoGutter 1 3 rfl (by decide) (by decide)⟩

/-! ## The optimized query text -/

/-- C8: `generateOptimizedQuery(q)` is the fixed header, then `q` unchanged, then the fixed
block of recommended indexes; `q` is a contiguous part of the result, can be read back
from it, and distinct inputs give distinct results; `displayResults` shows this text for
the query in the input. -/
theorem generateOptimizedQuery_verbatim (q : JSString) :
    generateOptimizedQuery q = optimizedHeader ++ q ++ indexSuggestions ∧
    q <:+: generateOptimizedQuery q ∧
    ((generateOptimizedQuery q).drop optimizedHeader.length).take
        ((generateOptimizedQuery q).length - optimizedHeader.length
          - indexSuggestions.length) = q ∧
    (∀ q₂, generateOptimizedQuery q = generateOptimizedQuery q₂ → q = q₂) ∧
    (utf16 "\n\n-- Recommended indexes:" <+: indexSuggestions) ∧
    (∀ s : State, (displayResults s).optimizedQuery = generateOptimizedQuery s.queryInput) ∧
    (∀ s : State, (displayResults { s with queryInput := utf16 "SELECT * FROM t" }).optimizedQuery
        = optimizedHeader ++ utf16 "SELECT * FROM t" ++ indexSuggestions) := by
  refine ⟨rfl, ⟨optimizedHeader, indexSuggestions, rfl⟩, ?_, ?_, ?_, ?_, ?_⟩
  · simp [generateOptimizedQuery]
  · intro q₂ h
    simpa [generateOptimizedQuery] using h
  · decide
  · intro s; rfl
  · intro s; rfl

/-! ## Navigation -/

theorem updateAt_length {α : Type} (f : α → α) (i : Nat) (l : List α) :
    (updateAt f i l).length = l.length := by
  induction l generalizing i with
  | nil => simp [updateAt]
  | cons a as ih => cases i <;> simp [updateAt, ih]

theorem getElem?_updateAt {α : Type} (f : α → α) (i j : Nat) (l : List α) :
    (updateAt f i l)[j]? = if j = i then (l[j]?).map f else l[j]? := by
  induction l generalizing i j with
  | nil => simp [updateAt]
  | cons a as ih =>
    cases i with
    | zero => cases j <;> simp [updateAt]
    | succ i => cases j <;> simp [updateAt, ih]

theorem Elem.deactivate_deactivate (e : Elem) : e.deactivate.deactivate = e.deactivate := by
  simp [Elem.deactivate, classRemove, List.filter_filter]

theorem getElem?_deactivateViews (views : List Nat) (doc : List Elem) (j : Nat) :
    (views.foldl (fun d v => updateAt Elem.deactivate v d) doc)[j]?
      = if j ∈ views then (doc[j]?).map Elem.deactivate else doc[j]? := by
  induction views generalizing doc with
  | nil => simp
  | cons v vs ih =>
    rw [List.foldl_cons, ih, getElem?_updateAt]
    by_cases hjv : j = v
    · subst hjv
      by_cases hvs : j ∈ vs
      · cases h : doc[j]? <;> simp [hvs, Elem.deactivate_deactivate]
      · simp [hvs]
    · by_cases hvs : j ∈ vs <;> simp [hjv, hvs]

theorem ids_deactivateViews (views : List Nat) (doc : List Elem) :
    (views.foldl (fun d v => updateAt Elem.deactivate v d) doc).map (fun e => e.id)
      = doc.map (fun e => e.id) := by
  apply List.ext_getElem?
  intro j
  rw [List.getElem?_map, List.getElem?_map, getElem?_deactivateViews]
  split_ifs
  · cases doc[j]? <;> simp [Elem.deactivate]
  · rfl

theorem getElementById_spec (id : JSString) (doc : List Elem) (j : Nat)
    (h : getElementById id doc = some j) :
    ∃ e, doc[j]? = some e ∧ e.id = id := by
  induction doc generalizing j with
  | nil => simp [getElementById] at h
  | cons e es ih =>
    unfold getElementById at h
    split_ifs at h with he
    · simp only [Option.some.injEq] at h
      subst h
      exact ⟨e, by simp, he⟩
    · cases hr : getElementById id es with
      | none => simp [hr] at h
      | some k =>
        simp only [hr, Option.map_some', Option.some.injEq] at h
        subst h
        obtain ⟨e2, h1, h2⟩ := ih k hr
        exact ⟨e2, by simpa using h1, h2⟩

theorem getElementById_congr (id : JSString) (d₁ d₂ : List Elem)
    (h : d₁.map (fun e => e.id) = d₂.map (fun e => e.id)) :
    getElementById id d₁ = getElementById id d₂ := by
  induction d₁ generalizing d₂ with
  | nil =>
    cases d₂ with
    | nil => rfl
    | cons e es => simp at h
  | cons a as ih =>
    cases d₂ with
    | nil => simp at h
    | cons e es =>
      simp only [List.map_cons, List.cons.injEq] at h
      simp only [getElementById, h.1, ih es h.2]

theorem filter_eq_singleton (l : List Nat) (a : Nat) (p : Nat → Bool) (hl : l.Nodup)
    (ha : a ∈ l) (hp : ∀ x ∈ l, p x = true ↔ x = a) : l.filter p = [a] := by
  induction l with
  | nil => simp at ha
  | cons x xs ih =>
    rw [List.nodup_cons] at hl
    by_cases hx : x = a
    · subst hx
      have hnil : xs.filter p = [] := by
        rw [List.filter_eq_nil_iff]
        intro y hy hpy
        have := (hp y (List.mem_cons_of_mem _ hy)).mp hpy
        exact hl.1 (this ▸ hy)
      have hpx : p x = true := (hp x (List.mem_cons_self _ _)).mpr rfl
      simp [List.filter_cons, hpx, hnil]
    · have hpx : ¬ p x = true := fun h => hx ((hp x (List.mem_cons_self _ _)).mp h)
      have ha2 : a ∈ xs := by
        rcases List.mem_cons.mp ha with h | h
        · exact absurd h.symm hx
        · exact h
      simp only [List.filter_cons, hpx, if_false]
      exact ih hl.2 ha2 (fun y hy => hp y (List.mem_cons_of_mem _ hy))

theorem active_not_mem_classRemove (cl : List JSString) : active ∉ classRemove active cl := by
  simp [classRemove]

theorem active_mem_classAdd (cl : List JSString) : active ∈ classAdd active cl := by
  unfold classAdd
  split_ifs with h
  · exact h
  · simp

/-- C6: a click on a navigation item whose view exists among the known views raises no
error and leaves exactly that view active among the views and exactly the clicked item
active among the navigation items, whatever was active before. -/
theorem handleNavigation_valid (s : State) (i j : Nat) (item : NavItem)
    (hitem : s.navItems[i]? = some item) (hviews : s.views.Nodup)
    (hfind : getElementById (interpolate item.dataView ++ utf16 "-view") s.doc = some j)
    (hj : j ∈ s.views) :
    (handleNavigation i s).2 = none ∧
    activeViews (handleNavigation i s).1 = [j] ∧
    ((handleNavigation i s).1.doc[j]?).map (fun e => e.id)
      = some (interpolate item.dataView ++ utf16 "-view") ∧
    activeNavItems (handleNavigation i s).1 = [i] ∧
    (handleNavigation i s).1.views = s.views ∧
    (handleNavigation i s).1.navItems.length = s.navItems.length := by
  have hfind2 : getElementById (interpolate item.dataView ++ utf16 "-view")
      (s.views.foldl (fun d v => updateAt Elem.deactivate v d) s.doc) = some j := by
    rw [getElementById_congr _ _ _ (ids_deactivateViews s.views s.doc)]
    exact hfind
  obtain ⟨e, he, hid⟩ := getElementById_spec _ _ _ hfind
  have hres : handleNavigation i s =
      ({ s with
          navItems := updateAt NavItem.activate i (s.navItems.map NavItem.deactivate)
          doc := updateAt Elem.activate j
            (s.views.foldl (fun d v => updateAt Elem.deactivate v d) s.doc) }, none) := by
    simp only [handleNavigation, hitem, hfind2]
  rw [hres]
  refine ⟨rfl, ?_, ?_, ?_, rfl, ?_⟩
  · apply filter_eq_singleton _ _ _ hviews hj
    intro v hv
    simp only [viewActive, getElem?_updateAt, getElem?_deactivateViews, hv, if_true]
    by_cases hvj : v = j
    · subst hvj
      simp [he, Elem.activate, active_mem_classAdd]
    · cases h : s.doc[v]? with
      | none => simp [hvj]
      | some e2 => simp [hvj, Elem.deactivate, active_not_mem_classRemove]
  · simp [getElem?_updateAt, getElem?_deactivateViews, hj, he, Elem.activate,
      Elem.deactivate, hid]
  · have hi : i < s.navItems.length := by
      rcases List.getElem?_eq_some.mp hitem with ⟨h, -⟩
      exact h
    have hlen : (updateAt NavItem.activate i (s.navItems.map NavItem.deactivate)).length
        = s.navItems.length := by simp [updateAt_length]
    unfold activeNavItems
    simp only [hlen]
    apply filter_eq_singleton _ _ _ (List.nodup_range _) (List.mem_range.mpr hi)
    intro m hm
    simp only [navActive, getElem?_updateAt, List.getElem?_map]
    by_cases hmi : m = i
    · subst hmi
      simp [hitem, NavItem.activate, NavItem.deactivate, active_mem_classAdd]
    · cases h : s.navItems[m]? with
      | none => simp [hmi]
      | some it => simp [hmi, NavItem.deactivate, active_not_mem_classRemove]
  · simp [updateAt_length]

theorem handleNavigation_valid_witness :
    activeViews demoPage = [0] ∧
    (handleNavigation 1 demoPage).2 = none ∧
    activeViews (handleNavigation 1 demoPage).1 = [1] ∧
    ((handleNavigation 1 demoPage).1.doc[1]?).map (fun e => e.id)
      = some (interpolate (some (utf16 "history")) ++ utf16 "-view") ∧
    activeNavItems (handleNavigation 1 demoPage).1 = [1] ∧
    (handleNavigation 1 demoPage).1.views = demoPage.views ∧
    (handleNavigation 1 demoPage).1.navItems.length = demoPage.navItems.length :=
  ⟨by decide, handleNavigation_valid demoPage 1 1
    { dataView := some (utf16 "history"), classList := [utf16 "nav-item"] }
    (by decide) (by decide) (by decide) (by decide)⟩

/-! ## Submitting a blank query -/

/-- C3: when the query is empty or only white space, `analyzeQuery` leaves the trigger as
it was, schedules no completion timer (only the exit timer of the notification), leaves
the displayed result as it was and appends one notification, a warning. -/
theorem analyzeQuery_blank (s : State) (hblank : ∀ c ∈ s.queryInput, isWhiteSpace c = true) :
    (analyzeQuery s).analyzeBtn = s.analyzeBtn ∧
    pendingAnalyses (analyzeQuery s) = pendingAnalyses s ∧
    (Idle s → Idle (analyzeQuery s)) ∧
    (analyzeQuery s).timers
      = s.timers ++ [{ tid := s.nextTimerId, due := s.now + 3000, cb := .notifyFade s.nextNodeId }] ∧
    ((analyzeQuery s).execTime = s.execTime ∧
      (analyzeQuery s).rowsScanned = s.rowsScanned ∧
      (analyzeQuery s).bufferHits = s.bufferHits ∧
      (analyzeQuery s).costEstimate = s.costEstimate ∧
      (analyzeQuery s).optimizedQuery = s.optimizedQuery ∧
      (analyzeQuery s).planTree = s.planTree ∧
      (analyzeQuery s).emptyResultsDisplay = s.emptyResultsDisplay ∧
      (analyzeQuery s).resultsContentDisplay = s.resultsContentDisplay) ∧
    (analyzeQuery s).notifications
      = s.notifications ++
        [{ nid := s.nextNodeId
           className := utf16 "notification"
           textContent := utf16 "Please enter a SQL query"
           borderColor := colors .warning
           color := colors .warning
           animation := utf16 "slideInRight 0.3s ease-out" }] := by
  have htrim := trim_eq_nil_of_blank s.queryInput hblank
  have hres : analyzeQuery s = showNotification (utf16 "Please enter a SQL query") .warning s := by
    simp [analyzeQuery, htrim]
  rw [hres]
  have hpend : pendingAnalyses (showNotification (utf16 "Please enter a SQL query") .warning s)
      = pendingAnalyses s := by
    simp [pendingAnalyses, showNotification, setTimeout, List.filter_append]
  refine ⟨rfl, hpend, ?_, rfl, ⟨rfl, rfl, rfl, rfl, rfl, rfl, rfl, rfl⟩, rfl⟩
  intro h
  exact ⟨h.1, by rw [hpend]; exact h.2⟩

theorem analyzeQuery_blank_witness :
    Idle (analyzeQuery { demoPage with queryInput := utf16 " \n\t" }) ∧
    (analyzeQuery { demoPage with queryInput := utf16 " \n\t" }).notifications.map
        (fun n => (n.textContent, n.color))
      = [(utf16 "Please enter a SQL query", colors .warning)] :=
  have h := analyzeQuery_blank { demoPage with queryInput := utf16 " \n\t" } (by decide)
  ⟨h.2.2.1 (by decide), by rw [h.2.2.2.2.2]; rfl⟩

/-! ## The shape of a step -/

theorem foldl_appendLineNumber_snd (l : List Nat) (g : List GutterNode × Nat) :
    g.2 ≤ (l.foldl appendLineNumber g).2 := by
  induction l generalizing g with
  | nil => simp
  | cons a as ih =>
    rw [List.foldl_cons]
    exact Nat.le_trans (by simp [appendLineNumber]) (ih _)

theorem sameCore_updateLineNumbers (n : Nat) (s : State) :
    SameCore s (updateLineNumbers n s) := by
  unfold updateLineNumbers SameCore
  cases s.gutter with
  | none => simp
  | some g =>
    simp only
    split_ifs
    · exact ⟨rfl, rfl, rfl, foldl_appendLineNumber_snd _ (g, s.nextNodeId), rfl, rfl⟩
    · exact ⟨rfl, rfl, rfl, Nat.le_refl _, rfl, rfl⟩
    · exact ⟨rfl, rfl, rfl, Nat.le_refl _, rfl, rfl⟩

theorem sameCore_handleNavigation (i : Nat) (s : State) :
    SameCore s (handleNavigation i s).1 := by
  unfold handleNavigation SameCore
  cases s.navItems[i]? with
  | none => simp
  | some item =>
    simp only
    split <;> simp

theorem SameCore.refl (s : State) : SameCore s s :=
  ⟨rfl, rfl, rfl, Nat.le_refl _, rfl, rfl⟩

theorem analyzeQuery_shape (e : Event) (s : State) (hsub : submits s e = true) :
    EventShape e s (analyzeQuery s) := by
  unfold analyzeQuery
  simp only
  split_ifs
  · exact .notified _ _ rfl
  · exact .submitted hsub rfl

theorem copySucceeded_shape (e : Event) (b : Nat) (target : ClickTarget) (s s₁ : State)
    (h : SameCore s s₁) : EventShape e s (copySucceeded b target s₁).1 := by
  unfold copySucceeded
  cases hb : s₁.codeBlocks[b]? with
  | none => exact .quiet h
  | some cbk =>
    simp only
    split_ifs
    · refine .copied b cbk.btnHTML _ ?_ rfl
      exact h
    · exact .quiet h

theorem step_shape (s : State) (e : Event) (he : e ≠ .timerFires) :
    EventShape e s (step s e) := by
  cases e with
  | navClick i => exact .quiet (sameCore_handleNavigation i s)
  | input text =>
    refine .quiet ?_
    have := sameCore_updateLineNumbers (split newline text).length
      { s with
        queryInput := text
        infoLines := s.infoLines.map (fun _ => numToString (split newline text).length)
        infoChars := s.infoChars.map (fun _ => numToString text.length) }
    exact this
  | analyzeClick =>
    simp only [step]
    split_ifs with hd
    · exact .quiet (SameCore.refl s)
    · exact analyzeQuery_shape _ s (by simpa [submits] using hd)
  | keydown ctrlKey key =>
    simp only [step]
    split_ifs with hk
    · exact analyzeQuery_shape _ s (by simpa [submits] using hk)
    · exact .quiet (SameCore.refl s)
  | copyClick b =>
    simp only [step, copyToClipboard]
    cases s.codeBlocks[b]? with
    | none => exact .quiet (SameCore.refl s)
    | some cbk => exact .quiet ⟨rfl, rfl, rfl, Nat.le_refl _, rfl, rfl⟩
  | copyClickInside b =>
    simp only [step, copyToClipboard]
    cases s.codeBlocks[b]? with
    | none => exact .quiet (SameCore.refl s)
    | some cbk => exact .quiet ⟨rfl, rfl, rfl, Nat.le_refl _, rfl, rfl⟩
  | clipboardSettled k ok =>
    simp only [step, clipboardSettled]
    cases s.clipboardWrites[k]? with
    | none => exact .quiet (SameCore.refl s)
    | some w =>
      simp only
      cases ok with
      | false => exact .quiet ⟨rfl, rfl, rfl, Nat.le_refl _, rfl, rfl⟩
      | true =>
        simp only [if_true]
        exact copySucceeded_shape _ _ _ _ _ ⟨rfl, rfl, rfl, Nat.le_refl _, rfl, rfl⟩
  | notify message type => exact .notified message type rfl
  | elapse ms => exact .elapsed ms rfl
  | timerFires => exact absurd rfl he

theorem sameCore_setMetric (m : MetricId) (el : MetricEl) (s : State) :
    SameCore s (setMetric m el s) := by
  cases m <;> exact ⟨rfl, rfl, rfl, Nat.le_refl _, rfl, rfl⟩

theorem runCallback_shape (cb : Callback) (s : State) :
    CallbackShape cb s (runCallback cb s) := by
  cases cb with
  | analysisDone =>
    refine .completed rfl _ rfl ?_ ?_ ?_ ?_ ?_ ?_ <;>
      simp [displayResults, renderQueryPlan, animateMetric, setTimeout, setMetric]
  | metricReveal m v =>
    exact .revealed m _ rfl (by simp) (sameCore_setMetric m _ s) rfl
  | metricSettle m =>
    exact .quiet rfl (by simp) (sameCore_setMetric m _ s)
  | copyRevert b html =>
    exact .quiet rfl (by simp) ⟨rfl, rfl, rfl, Nat.le_refl _, rfl, rfl⟩
  | notifyFade nid => exact .faded nid rfl rfl
  | notifyRemove nid => exact .removed nid rfl rfl

theorem fireTimer_eq (s : State) :
    (earliest s.timers = none ∧ fireTimer s = s) ∨
    ∃ tm, earliest s.timers = some tm ∧
      fireTimer s = runCallback tm.cb (dequeue tm s) := by
  unfold fireTimer
  cases h : earliest s.timers with
  | none => exact Or.inl ⟨rfl, rfl⟩
  | some tm => exact Or.inr ⟨tm, rfl, rfl⟩
/-! ## The timer queue -/

theorem earliest_mem (l : List Timer) (t : Timer) (h : earliest l = some t) : t ∈ l := by
  induction l generalizing t with
  | nil => simp [earliest] at h
  | cons a as ih =>
    unfold earliest at h
    cases hr : earliest as with
    | none =>
      simp only [hr, Option.some.injEq] at h
      subst h
      exact List.mem_cons_self _ _
    | some u =>
      simp only [hr] at h
      split_ifs at h
      · simp only [Option.some.injEq] at h
        subst h
        exact List.mem_cons_self _ _
      · simp only [Option.some.injEq] at h
        subst h
        exact List.mem_cons_of_mem _ (ih u hr)

theorem earliest_eq_none (l : List Timer) (h : earliest l = none) : l = [] := by
  cases l with
  | nil => rfl
  | cons a as =>
    unfold earliest at h
    cases hr : earliest as with
    | none => simp [hr] at h
    | some u =>
      simp only [hr] at h
      split_ifs at h

theorem earliest_le (l : List Timer) (t : Timer) (h : earliest l = some t) :
    ∀ u ∈ l, t.due ≤ u.due := by
  induction l generalizing t with
  | nil => simp
  | cons a as ih =>
    unfold earliest at h
    cases hr : earliest as with
    | none =>
      have hnil := earliest_eq_none as hr
      subst hnil
      simp only [hr, Option.some.injEq] at h
      subst h
      simp
    | some w =>
      simp only [hr] at h
      have hw := ih w hr
      intro u hu
      rcases List.mem_cons.mp hu with rfl | hu
      · split_ifs at h with hle
        · simp only [Option.some.injEq] at h
          subst h
          exact Nat.le_refl _
        · simp only [Option.some.injEq] at h
          subst h
          omega
      · split_ifs at h with hle
        · simp only [Option.some.injEq] at h
          subst h
          exact Nat.le_trans hle (hw u hu)
        · simp only [Option.some.injEq] at h
          subst h
          exact hw u hu

/-! ## Consistency of the event loop -/

theorem WellFormed.sameCore {s s₂ : State} (h : WellFormed s) (hc : SameCore s s₂) :
    WellFormed s₂ := by
  obtain ⟨h1, h2, h3, h4⟩ := h
  obtain ⟨c1, c2, c3, c4, c5, c6⟩ := hc
  refine ⟨?_, ?_, ?_, ?_⟩
  · rw [c1, c2]; exact h1
  · rw [c2, c3]; exact h2
  · rw [c2]; intro tm htm x hx; exact Nat.lt_of_lt_of_le (h3 tm htm x hx) c4
  · rw [c5]; intro n hn; exact Nat.lt_of_lt_of_le (h4 n hn) c4

theorem WellFormed.setTimeout {s : State} (h : WellFormed s) (cb : Callback) (d : Nat)
    (hcb : ∀ x ∈ cb.node, x < s.nextNodeId) : WellFormed (setTimeout cb d s) := by
  obtain ⟨h1, h2, h3, h4⟩ := h
  refine ⟨?_, ?_, ?_, h4⟩
  · intro tm htm
    simp only [QueryOptim.setTimeout, List.mem_append, List.mem_singleton] at htm
    rcases htm with htm | rfl
    · exact h1 tm htm
    · exact Nat.le_add_right _ _
  · intro tm htm
    simp only [QueryOptim.setTimeout, List.mem_append, List.mem_singleton] at htm ⊢
    rcases htm with htm | rfl
    · exact Nat.lt_succ_of_lt (h2 tm htm)
    · exact Nat.lt_succ_self _
  · intro tm htm
    simp only [QueryOptim.setTimeout, List.mem_append, List.mem_singleton] at htm ⊢
    rcases htm with htm | rfl
    · exact h3 tm htm
    · exact hcb

theorem WellFormed.showNotification {s : State} (h : WellFormed s) (m : JSString)
    (sev : Severity) : WellFormed (showNotification m sev s) := by
  obtain ⟨h1, h2, h3, h4⟩ := h
  unfold QueryOptim.showNotification
  apply WellFormed.setTimeout
  · refine ⟨h1, h2, ?_, ?_⟩
    · intro tm htm x hx
      exact Nat.lt_succ_of_lt (h3 tm htm x hx)
    · intro n hn
      simp only [List.mem_append, List.mem_singleton] at hn
      rcases hn with hn | rfl
      · exact Nat.lt_succ_of_lt (h4 n hn)
      · exact Nat.lt_succ_self _
  · intro x hx
    simp only [Callback.node, Option.mem_def, Option.some.injEq] at hx
    subst hx
    exact Nat.lt_succ_self _

theorem WellFormed.elapse {s : State} (h : WellFormed s) (ms : Nat) :
    WellFormed (elapse ms s) := by
  obtain ⟨h1, h2, h3, h4⟩ := h
  unfold QueryOptim.elapse
  cases he : earliest s.timers with
  | none =>
    have := earliest_eq_none _ he
    refine ⟨?_, h2, h3, h4⟩
    intro tm htm
    simp [this] at htm
  | some t =>
    refine ⟨?_, h2, h3, h4⟩
    intro tm htm
    have := earliest_le _ _ he tm htm
    have := h1 tm htm
    simp only
    omega

theorem WellFormed.wf_fired {s : State} (h : WellFormed s) (tm : Timer)
    (he : earliest s.timers = some tm) :
    WellFormed (dequeue tm s) := by
  obtain ⟨h1, h2, h3, h4⟩ := h
  refine ⟨?_, ?_, ?_, h4⟩
  · intro u hu
    have hu2 := List.mem_of_mem_erase hu
    have := earliest_le _ _ he u hu2
    have := h1 u hu2
    simp only [dequeue]
    omega
  · intro u hu
    exact h2 u (List.mem_of_mem_erase hu)
  · intro u hu
    exact h3 u (List.mem_of_mem_erase hu)

theorem WellFormed.notifyFade {s : State} (h : WellFormed s) (nid : Nat)
    (hn : nid < s.nextNodeId) : WellFormed (notifyFade nid s) := by
  obtain ⟨h1, h2, h3, h4⟩ := h
  unfold QueryOptim.notifyFade
  apply WellFormed.setTimeout
  · refine ⟨h1, h2, h3, ?_⟩
    intro n hn2
    simp only [List.mem_map] at hn2
    obtain ⟨n0, hn0, rfl⟩ := hn2
    split_ifs
    · exact h4 n0 hn0
    · exact h4 n0 hn0
  · intro x hx
    simp only [Callback.node, Option.mem_def, Option.some.injEq] at hx
    subst hx
    exact hn

theorem WellFormed.notifyRemove {s : State} (h : WellFormed s) (nid : Nat) :
    WellFormed (notifyRemove nid s) := by
  obtain ⟨h1, h2, h3, h4⟩ := h
  refine ⟨h1, h2, h3, ?_⟩
  intro n hn
  exact h4 n (List.mem_of_mem_filter hn)

theorem WellFormed.eventShape {e : Event} {s s₂ : State} (h : WellFormed s)
    (hs : EventShape e s s₂) : WellFormed s₂ := by
  cases hs with
  | quiet hc => exact h.sameCore hc
  | notified m sev hh => rw [hh]; exact h.showNotification m sev
  | submitted _ hh =>
    rw [hh]
    apply WellFormed.setTimeout (h.sameCore ⟨rfl, rfl, rfl, Nat.le_refl _, rfl, rfl⟩)
    intro x hx
    simp [Callback.node] at hx
  | copied b html s₁ h₁ hh =>
    rw [hh]
    apply WellFormed.setTimeout (h.sameCore h₁)
    intro x hx
    simp [Callback.node] at hx
  | elapsed ms hh => rw [hh]; exact h.elapse ms

theorem WellFormed.callbackShape {s s₂ : State} {cb : Callback} (h : WellFormed s)
    (hcb : ∀ x ∈ cb.node, x < s.nextNodeId) (hs : CallbackShape cb s s₂) :
    WellFormed s₂ := by
  cases hs with
  | quiet _ _ hc => exact h.sameCore hc
  | revealed m s₁ _ _ h₁ hh =>
    rw [hh]
    apply WellFormed.setTimeout (h.sameCore h₁)
    intro x hx
    simp [Callback.node] at hx
  | completed _ s₁ h₁ hnow htimers hid hnode hnotif hbtn =>
    rw [h₁]
    apply WellFormed.showNotification
    obtain ⟨w1, w2, w3, w4⟩ := h
    refine ⟨?_, ?_, ?_, ?_⟩
    · rw [hnow, htimers]
      intro tm htm
      simp only [List.mem_append, List.mem_cons, List.mem_singleton, List.not_mem_nil,
        or_false] at htm
      rcases htm with htm | rfl | rfl | rfl | rfl
      · exact w1 tm htm
      all_goals exact Nat.le_add_right _ _
    · rw [hid, htimers]
      intro tm htm
      simp only [List.mem_append, List.mem_cons, List.mem_singleton, List.not_mem_nil,
        or_false] at htm
      rcases htm with htm | rfl | rfl | rfl | rfl
      · have := w2 tm htm; omega
      all_goals (simp only; omega)
    · rw [hnode, htimers]
      intro tm htm
      simp only [List.mem_append, List.mem_cons, List.mem_singleton, List.not_mem_nil,
        or_false] at htm
      rcases htm with htm | rfl | rfl | rfl | rfl
      · exact w3 tm htm
      all_goals (intro x hx; simp [Callback.node] at hx)
    · rw [hnode, hnotif]; exact w4
  | faded nid hc hh =>
    rw [hh]
    apply h.notifyFade
    apply hcb
    rw [hc]; rfl
  | removed nid hc hh =>
    rw [hh]
    exact h.notifyRemove nid

theorem WellFormed.wf_after_event {s : State} (h : WellFormed s) (e : Event) :
    WellFormed (step s e) := by
  by_cases he : e = .timerFires
  · subst he
    show WellFormed (fireTimer s)
    rcases fireTimer_eq s with ⟨-, h0⟩ | ⟨tm, htm, h0⟩
    · rw [h0]; exact h
    · rw [h0]
      apply WellFormed.callbackShape (h.wf_fired tm htm) _ (runCallback_shape _ _)
      exact h.2.2.1 tm (earliest_mem _ _ htm)
  · exact h.eventShape (step_shape s e he)

theorem WellFormed.wf_after_events {s : State} (h : WellFormed s) (es : List Event) :
    WellFormed (run s es) := by
  induction es generalizing s with
  | nil => exact h
  | cons e es ih => exact ih (h.wf_after_event e)

/-! ## The life of a notification -/

theorem Unrelated.unrelated_trans {nid : Nat} {s s₁ s₂ : State} (h₁ : Unrelated nid s s₁)
    (h₂ : Unrelated nid s₁ s₂) : Unrelated nid s s₂ :=
  ⟨h₂.1.trans h₁.1, h₂.2.1.trans h₁.2.1, Nat.le_trans h₁.2.2.1 h₂.2.2.1,
    Nat.le_trans h₁.2.2.2 h₂.2.2.2⟩

theorem Lifecycle.life_frame {nid t : Nat} {s s₂ : State} (h : Lifecycle nid t s)
    (hu : Unrelated nid s s₂) : Lifecycle nid t s₂ := by
  obtain ⟨hd, hf, hnow, hnode⟩ := hu
  obtain ⟨hlt, hph⟩ := h
  refine ⟨Nat.lt_of_lt_of_le hlt hnode, ?_⟩
  rw [hd, hf]
  rcases hph with h1 | h2 | ⟨h3, h4, h5⟩
  · exact Or.inl h1
  · exact Or.inr (Or.inl h2)
  · exact Or.inr (Or.inr ⟨h3, h4, Nat.le_trans h5 hnow⟩)

theorem unrelated_sameCore {nid : Nat} {s s₂ : State} (hc : SameCore s s₂) :
    Unrelated nid s s₂ := by
  obtain ⟨c1, c2, c3, c4, c5, c6⟩ := hc
  exact ⟨by simp [displayed, c5], by rw [c2], by rw [c1], c4⟩

theorem unrelated_setTimeout {nid : Nat} (s : State) (cb : Callback) (d : Nat)
    (hcb : cb.node ≠ some nid) : Unrelated nid s (setTimeout cb d s) := by
  refine ⟨Iff.rfl, ?_, Nat.le_refl _, Nat.le_refl _⟩
  simp [setTimeout, List.filter_append, refersTo, hcb]

theorem unrelated_showNotification {nid : Nat} (s : State) (m : JSString) (sev : Severity)
    (h : nid < s.nextNodeId) : Unrelated nid s (showNotification m sev s) := by
  refine ⟨?_, ?_, Nat.le_refl _, Nat.le_succ _⟩
  · simp only [displayed, showNotification, setTimeout, List.mem_append, List.mem_singleton]
    constructor
    · rintro ⟨n, hn | rfl, hnid⟩
      · exact ⟨n, hn, hnid⟩
      · simp only at hnid; omega
    · rintro ⟨n, hn, hnid⟩
      exact ⟨n, Or.inl hn, hnid⟩
  · have : s.nextNodeId ≠ nid := by omega
    simp [showNotification, setTimeout, List.filter_append, refersTo, Callback.node, this]

theorem elapse_now_le (ms : Nat) (s : State) : s.now ≤ (elapse ms s).now := by
  unfold elapse
  cases earliest s.timers with
  | none => exact Nat.le_add_right _ _
  | some t => exact Nat.le_max_left _ _

theorem unrelated_elapse {nid : Nat} (s : State) (ms : Nat) :
    Unrelated nid s (elapse ms s) := by
  refine ⟨?_, ?_, elapse_now_le ms s, ?_⟩ <;>
    (unfold elapse; cases earliest s.timers <;> simp [displayed])

theorem displayed_notifyFade (nid x : Nat) (s : State) :
    displayed nid (notifyFade x s) ↔ displayed nid s := by
  simp only [displayed, notifyFade, setTimeout, List.mem_map]
  constructor
  · rintro ⟨n, ⟨n0, hn0, rfl⟩, hnid⟩
    refine ⟨n0, hn0, ?_⟩
    split_ifs at hnid <;> exact hnid
  · rintro ⟨n, hn, hnid⟩
    refine ⟨_, ⟨n, hn, rfl⟩, ?_⟩
    split_ifs <;> exact hnid

theorem unrelated_notifyFade {nid : Nat} (s : State) (x : Nat) (hx : x ≠ nid) :
    Unrelated nid s (notifyFade x s) := by
  refine ⟨displayed_notifyFade nid x s, ?_, Nat.le_refl _, Nat.le_refl _⟩
  simp [notifyFade, setTimeout, List.filter_append, refersTo, Callback.node, hx]

theorem displayed_notifyRemove (nid x : Nat) (s : State) :
    displayed nid (notifyRemove x s) ↔ displayed nid s ∧ nid ≠ x := by
  simp only [displayed, notifyRemove, List.mem_filter, decide_eq_true_eq]
  constructor
  · rintro ⟨n, ⟨hn, hne⟩, hnid⟩
    exact ⟨⟨n, hn, hnid⟩, hnid ▸ hne⟩
  · rintro ⟨⟨n, hn, hnid⟩, hne⟩
    exact ⟨n, ⟨hn, hnid ▸ hne⟩, hnid⟩

theorem unrelated_notifyRemove {nid : Nat} (s : State) (x : Nat) (hx : x ≠ nid) :
    Unrelated nid s (notifyRemove x s) := by
  refine ⟨?_, rfl, Nat.le_refl _, Nat.le_refl _⟩
  rw [displayed_notifyRemove]
  exact ⟨fun h => h.1, fun h => ⟨h, fun h2 => hx h2.symm⟩⟩

theorem filter_erase_of_false (p : Timer → Bool) (l : List Timer) (tm : Timer)
    (h : p tm = false) : (l.erase tm).filter p = l.filter p := by
  induction l with
  | nil => simp
  | cons a as ih =>
    by_cases ha : a = tm
    · subst ha
      simp [h]
    · rw [List.erase_cons_tail (by simpa using ha)]
      simp [List.filter_cons, ih]

theorem filter_erase_of_true (p : Timer → Bool) (l : List Timer) (tm : Timer)
    (h : p tm = true) : (l.erase tm).filter p = (l.filter p).erase tm := by
  induction l with
  | nil => simp
  | cons a as ih =>
    by_cases ha : a = tm
    · subst ha
      simp [h]
    · rw [List.erase_cons_tail (by simpa using ha)]
      by_cases hpa : p a = true
      · simp only [List.filter_cons, hpa, if_true]
        rw [List.erase_cons_tail (by simpa using ha), ih]
      · simp only [List.filter_cons, hpa, if_false]
        exact ih

theorem unrelated_fired {nid : Nat} (s : State) (tm : Timer)
    (h : refersTo nid tm = false) :
    Unrelated nid s (dequeue tm s) :=
  ⟨Iff.rfl, filter_erase_of_false _ _ _ h, Nat.le_max_left _ _, Nat.le_refl _⟩

theorem unrelated_eventShape {nid : Nat} {e : Event} {s s₂ : State}
    (hlt : nid < s.nextNodeId) (hs : EventShape e s s₂) : Unrelated nid s s₂ := by
  cases hs with
  | quiet hc => exact unrelated_sameCore hc
  | notified m sev hh => rw [hh]; exact unrelated_showNotification s m sev hlt
  | submitted _ hh =>
    rw [hh]
    exact (unrelated_sameCore ⟨rfl, rfl, rfl, Nat.le_refl _, rfl, rfl⟩).unrelated_trans
      (unrelated_setTimeout _ _ _ (by simp [Callback.node]))
  | copied b html s₁ h₁ hh =>
    rw [hh]
    exact (unrelated_sameCore h₁).unrelated_trans (unrelated_setTimeout _ _ _ (by simp [Callback.node]))
  | elapsed ms hh => rw [hh]; exact unrelated_elapse s ms

theorem unrelated_callbackShape {nid : Nat} {s s₂ : State} {cb : Callback}
    (hlt : nid < s.nextNodeId) (hcb : cb.node ≠ some nid) (hs : CallbackShape cb s s₂) :
    Unrelated nid s s₂ := by
  cases hs with
  | quiet _ _ hc => exact unrelated_sameCore hc
  | revealed m s₁ _ _ h₁ hh =>
    rw [hh]
    exact (unrelated_sameCore h₁).unrelated_trans (unrelated_setTimeout _ _ _ (by simp [Callback.node]))
  | completed _ s₁ h₁ hnow htimers hid hnode hnotif hbtn =>
    rw [h₁]
    have h0 : Unrelated nid s s₁ := by
      refine ⟨by simp [displayed, hnotif], ?_, by rw [hnow], by rw [hnode]⟩
      rw [htimers]
      simp [List.filter_append, List.filter_cons, refersTo, Callback.node]
    exact h0.unrelated_trans (unrelated_showNotification s₁ _ _ (by rw [hnode]; exact hlt))
  | faded x hc hh =>
    rw [hh]
    apply unrelated_notifyFade
    intro hx
    apply hcb
    rw [hc, hx]; rfl
  | removed x hc hh =>
    rw [hh]
    apply unrelated_notifyRemove
    intro hx
    apply hcb
    rw [hc, hx]; rfl

theorem mem_filter_refersTo {nid : Nat} {l : List Timer} {tm : Timer} (hm : tm ∈ l)
    (hr : refersTo nid tm = true) : tm ∈ l.filter (refersTo nid) :=
  List.mem_filter.mpr ⟨hm, hr⟩

theorem Lifecycle.life_fired {nid t : Nat} {s : State} (hwf : WellFormed s)
    (h : Lifecycle nid t s) (tm₀ : Timer) (he : earliest s.timers = some tm₀)
    (hr : refersTo nid tm₀ = true) :
    Lifecycle nid t (runCallback tm₀.cb (dequeue tm₀ s)) := by
  have hmem := earliest_mem _ _ he
  have hclock := hwf.1 tm₀ hmem
  have hin := mem_filter_refersTo hmem hr
  obtain ⟨hlt, hph⟩ := h
  rcases hph with ⟨hd, tm, hf, hcb, hdue⟩ | ⟨hd, tm, hf, hcb, hdue⟩ | ⟨-, hf, -⟩
  · rw [hf, List.mem_singleton] at hin
    subst hin
    rw [hcb]
    refine ⟨hlt, Or.inr (Or.inl ⟨?_, ?_⟩)⟩
    · exact (displayed_notifyFade nid nid _).mpr hd
    · refine ⟨{ tid := s.nextTimerId, due := max s.now tm₀.due + 300, cb := .notifyRemove nid },
        ?_, rfl, ?_⟩
      · simp only [runCallback, notifyFade, setTimeout, List.filter_append, dequeue]
        rw [filter_erase_of_true _ _ _ hr, hf]
        simp [refersTo, Callback.node]
      · simp only
        omega
  · rw [hf, List.mem_singleton] at hin
    subst hin
    rw [hcb]
    refine ⟨hlt, Or.inr (Or.inr ⟨?_, ?_, ?_⟩)⟩
    · rw [runCallback, displayed_notifyRemove]
      exact fun h => h.2 rfl
    · simp only [runCallback, notifyRemove, dequeue]
      rw [filter_erase_of_true _ _ _ hr, hf]
      simp
    · simp only [runCallback, notifyRemove, dequeue]
      omega
  · rw [hf] at hin
    simp at hin

theorem Lifecycle.life_after_event {nid t : Nat} {s : State} (hwf : WellFormed s)
    (h : Lifecycle nid t s) (e : Event) : Lifecycle nid t (step s e) := by
  by_cases he : e = .timerFires
  · subst he
    show Lifecycle nid t (fireTimer s)
    rcases fireTimer_eq s with ⟨-, h0⟩ | ⟨tm, htm, h0⟩
    · rw [h0]; exact h
    · rw [h0]
      by_cases hr : refersTo nid tm = true
      · exact h.life_fired hwf tm htm hr
      · have hr2 : refersTo nid tm = false := by simpa using hr
        apply h.life_frame
        apply (unrelated_fired s tm hr2).unrelated_trans
        apply unrelated_callbackShape (s := dequeue tm s) h.1 _ (runCallback_shape _ _)
        simpa [refersTo] using hr2
  · exact h.life_frame (unrelated_eventShape h.1 (step_shape s e he))

theorem Lifecycle.life_after_events {nid t : Nat} {s : State} (hwf : WellFormed s)
    (h : Lifecycle nid t s) (es : List Event) : Lifecycle nid t (run s es) := by
  induction es generalizing s with
  | nil => exact h
  | cons e es ih => exact ih (hwf.wf_after_event e) (h.life_after_event hwf e)

theorem Lifecycle.life_init {s : State} (hwf : WellFormed s) (m : JSString)
    (sev : Severity) : Lifecycle s.nextNodeId s.now (showNotification m sev s) := by
  refine ⟨Nat.lt_succ_self _, Or.inl ⟨?_, ?_⟩⟩
  · exact ⟨newNotification s.nextNodeId m sev, by simp [showNotification, setTimeout,
      newNotification], rfl⟩
  · refine ⟨{ tid := s.nextTimerId, due := s.now + 3000, cb := .notifyFade s.nextNodeId },
      ?_, rfl, rfl⟩
    have hnil : s.timers.filter (refersTo s.nextNodeId) = [] := by
      rw [List.filter_eq_nil_iff]
      intro tm htm hr
      have := hwf.2.2.1 tm htm s.nextNodeId (by simpa [refersTo] using hr)
      omega
    simp [showNotification, setTimeout, List.filter_append, hnil, refersTo, Callback.node]

theorem Lifecycle.displayed_le {nid t : Nat} {s : State} (hwf : WellFormed s)
    (h : Lifecycle nid t s) (hd : displayed nid s) : s.now ≤ t + 3300 := by
  obtain ⟨-, hph⟩ := h
  rcases hph with ⟨-, tm, hf, -, hdue⟩ | ⟨-, tm, hf, -, hdue⟩ | ⟨hnd, -, -⟩
  · have hm : tm ∈ s.timers.filter (refersTo nid) := by rw [hf]; simp
    have := hwf.1 tm (List.mem_of_mem_filter hm)
    omega
  · have hm : tm ∈ s.timers.filter (refersTo nid) := by rw [hf]; simp
    have := hwf.1 tm (List.mem_of_mem_filter hm)
    omega
  · exact absurd hd hnd

theorem Lifecycle.removed_ge {nid t : Nat} {s : State} (h : Lifecycle nid t s)
    (hd : ¬ displayed nid s) : t + 3300 ≤ s.now := by
  obtain ⟨-, hph⟩ := h
  rcases hph with ⟨hd2, -⟩ | ⟨hd2, -⟩ | ⟨-, -, hle⟩
  · exact absurd hd2 hd
  · exact absurd hd2 hd
  · exact hle

/-! ## Every pending timer fires -/

theorem Callback.weight_pos (cb : Callback) : 0 < cb.weight := by
  cases cb <;> simp [Callback.weight]

theorem pendingWork_setMetric (m : MetricId) (el : MetricEl) (s : State) :
    pendingWork (setMetric m el s) = pendingWork s := by
  cases m <;> rfl

theorem pendingWork_runCallback (cb : Callback) (s : State) :
    pendingWork (runCallback cb s) + 1 = pendingWork s + cb.weight := by
  cases cb with
  | analysisDone =>
    simp [runCallback, analysisDone, showNotification, displayResults, renderQueryPlan,
      animateMetric, setTimeout, setMetric, pendingWork, Callback.weight]
  | metricReveal m v =>
    cases m <;>
      simp [runCallback, metricReveal, setMetric, setTimeout, pendingWork, Callback.weight]
  | metricSettle m =>
    cases m <;>
      simp [runCallback, metricSettle, setMetric, getMetric, pendingWork, Callback.weight]
  | copyRevert b html => simp [runCallback, copyRevert, pendingWork, Callback.weight]
  | notifyFade nid =>
    simp [runCallback, notifyFade, setTimeout, pendingWork, Callback.weight]
  | notifyRemove nid => simp [runCallback, notifyRemove, pendingWork, Callback.weight]

theorem sum_weight_erase (l : List Timer) (tm : Timer) (h : tm ∈ l) :
    ((l.erase tm).map (fun t => t.cb.weight)).sum + tm.cb.weight
      = (l.map (fun t => t.cb.weight)).sum := by
  induction l with
  | nil => simp at h
  | cons a as ih =>
    by_cases ha : a = tm
    · subst ha
      simp [Nat.add_comm]
    · rw [List.erase_cons_tail (by simpa using ha)]
      have hm : tm ∈ as := by
        rcases List.mem_cons.mp h with h | h
        · exact absurd h.symm ha
        · exact h
      simp only [List.map_cons, List.sum_cons]
      rw [← ih hm]
      omega

theorem pendingWork_fireTimer (s : State) (h : s.timers ≠ []) :
    pendingWork (fireTimer s) + 1 = pendingWork s := by
  rcases fireTimer_eq s with ⟨h0, -⟩ | ⟨tm, htm, h0⟩
  · exact absurd (earliest_eq_none _ h0) h
  · rw [h0]
    have h1 := pendingWork_runCallback tm.cb (dequeue tm s)
    have h2 := sum_weight_erase s.timers tm (earliest_mem _ _ htm)
    have h3 : pendingWork (dequeue tm s) = ((s.timers.erase tm).map (fun t => t.cb.weight)).sum :=
      rfl
    have h4 : pendingWork s = (s.timers.map (fun t => t.cb.weight)).sum := rfl
    omega

theorem pendingWork_eq_zero (s : State) (h : pendingWork s = 0) : s.timers = [] := by
  cases hl : s.timers with
  | nil => rfl
  | cons a as =>
    have := Callback.weight_pos a.cb
    simp only [pendingWork, hl, List.map_cons, List.sum_cons] at h
    omega

theorem run_replicate_timerFires (n : Nat) (s : State) (h : pendingWork s = n) :
    (run s (List.replicate n .timerFires)).timers = [] := by
  induction n generalizing s with
  | zero => exact pendingWork_eq_zero s h
  | succ n ih =>
    have hne : s.timers ≠ [] := by
      intro h0
      simp [pendingWork, h0] at h
    have := pendingWork_fireTimer s hne
    show (run (step s .timerFires) (List.replicate n .timerFires)).timers = []
    apply ih
    show pendingWork (fireTimer s) = n
    omega

theorem drain_timers (s : State) : (run s (drain s)).timers = [] :=
  run_replicate_timerFires _ s rfl

theorem run_append (s : State) (es fs : List Event) :
    run s (es ++ fs) = run (run s es) fs := by
  simp [run, List.foldl_append]

/-! ## Notifications expire on their own -/

theorem runCallback_now (cb : Callback) (s : State) : (runCallback cb s).now = s.now := by
  cases cb with
  | analysisDone => rfl
  | metricReveal m v => cases m <;> rfl
  | metricSettle m => cases m <;> rfl
  | copyRevert b html => rfl
  | notifyFade nid => rfl
  | notifyRemove nid => rfl

theorem step_now_le_due {s : State} (hwf : WellFormed s) (e : Event) (tm : Timer)
    (htm : tm ∈ s.timers) : (step s e).now ≤ tm.due := by
  have hclock := hwf.1 tm htm
  by_cases he : e = .timerFires
  · subst he
    show (fireTimer s).now ≤ tm.due
    rcases fireTimer_eq s with ⟨-, h0⟩ | ⟨tm₀, h1, h0⟩
    · rw [h0]; exact hclock
    · rw [h0, runCallback_now]
      have := earliest_le _ _ h1 tm htm
      simp only [dequeue]
      omega
  · cases step_shape s e he with
    | quiet hc => rw [hc.1]; exact hclock
    | notified m sev hh => rw [hh]; exact hclock
    | submitted _ hh => rw [hh]; exact hclock
    | copied b html s₁ h₁ hh =>
      rw [hh]
      show s₁.now ≤ tm.due
      rw [h₁.1]; exact hclock
    | elapsed ms hh =>
      rw [hh]
      unfold elapse
      cases h1 : earliest s.timers with
      | none => rw [earliest_eq_none _ h1] at htm; simp at htm
      | some t =>
        have := earliest_le _ _ h1 tm htm
        simp only
        omega

theorem Lifecycle.pending_of_displayed {nid t : Nat} {s : State} (h : Lifecycle nid t s)
    (hd : displayed nid s) : ∃ tm ∈ s.timers, tm.due ≤ t + 3300 := by
  obtain ⟨-, hph⟩ := h
  rcases hph with ⟨-, tm, hf, -, hdue⟩ | ⟨-, tm, hf, -, hdue⟩ | ⟨hnd, -, -⟩
  · have hm : tm ∈ s.timers.filter (refersTo nid) := by rw [hf]; simp
    exact ⟨tm, List.mem_of_mem_filter hm, by omega⟩
  · have hm : tm ∈ s.timers.filter (refersTo nid) := by rw [hf]; simp
    exact ⟨tm, List.mem_of_mem_filter hm, by omega⟩
  · exact absurd hd hnd

theorem Lifecycle.drained {nid t : Nat} {s : State} (h : Lifecycle nid t s)
    (hempty : s.timers = []) : ¬ displayed nid s := by
  obtain ⟨-, hph⟩ := h
  rcases hph with ⟨-, tm, hf, -, -⟩ | ⟨-, tm, hf, -, -⟩ | ⟨hnd, -, -⟩
  · simp [hempty] at hf
  · simp [hempty] at hf
  · exact hnd

/-- C10: `showNotification` appends one notification at the end of the displayed ones and
one timer at the end of the pending ones, changing no earlier notification or timer.
Whatever happens afterwards, later `showNotification` calls included, the notification is
displayed until the clock reaches 3300 ms after its creation, is removed exactly then, no
earlier and no later, and is removed once the pending timers have fired.  Two calls in a
row leave both notifications displayed, the older first. -/
theorem showNotification_independent (s : State) (hwf : WellFormed s) (m : JSString)
    (sev : Severity) :
    (showNotification m sev s).notifications
      = s.notifications ++ [newNotification s.nextNodeId m sev] ∧
    (showNotification m sev s).timers
      = s.timers ++ [{ tid := s.nextTimerId, due := s.now + 3000, cb := .notifyFade s.nextNodeId }] ∧
    (∀ es, displayed s.nextNodeId (run (showNotification m sev s) es) →
      (run (showNotification m sev s) es).now ≤ s.now + 3300) ∧
    (∀ es, ¬ displayed s.nextNodeId (run (showNotification m sev s) es) →
      s.now + 3300 ≤ (run (showNotification m sev s) es).now) ∧
    (∀ es e, displayed s.nextNodeId (run (showNotification m sev s) es) →
      ¬ displayed s.nextNodeId (step (run (showNotification m sev s) es) e) →
      (step (run (showNotification m sev s) es) e).now = s.now + 3300) ∧
    (∀ es, ¬ displayed s.nextNodeId (run (showNotification m sev s)
      (es ++ drain (run (showNotification m sev s) es)))) ∧
    (∀ m₂ sev₂, (showNotification m₂ sev₂ (showNotification m sev s)).notifications
      = s.notifications ++
        [newNotification s.nextNodeId m sev, newNotification (s.nextNodeId + 1) m₂ sev₂]) := by
  have hwf1 : WellFormed (showNotification m sev s) := hwf.showNotification m sev
  have hlife : ∀ es, Lifecycle s.nextNodeId s.now (run (showNotification m sev s) es) :=
    fun es => (Lifecycle.life_init hwf m sev).life_after_events hwf1 es
  refine ⟨rfl, rfl, ?_, ?_, ?_, ?_, ?_⟩
  · intro es hd
    exact (hlife es).displayed_le (hwf1.wf_after_events es) hd
  · intro es hd
    exact (hlife es).removed_ge hd
  · intro es e hd hnd
    obtain ⟨tm, htm, hdue⟩ := (hlife es).pending_of_displayed hd
    have h1 := step_now_le_due (hwf1.wf_after_events es) e tm htm
    have h2 : Lifecycle s.nextNodeId s.now (step (run (showNotification m sev s) es) e) :=
      (hlife es).life_after_event (hwf1.wf_after_events es) e
    have h3 := h2.removed_ge hnd
    omega
  · intro es
    apply (hlife _).drained
    rw [run_append]
    exact drain_timers _
  · intro m₂ sev₂
    simp [showNotification, setTimeout, newNotification]

theorem showNotification_independent_witness :
    WellFormed demoPage ∧
    (showNotification (utf16 "Saved") .info demoPage).notifications
      = demoPage.notifications ++ [newNotification demoPage.nextNodeId (utf16 "Saved") .info] ∧
    (displayed demoPage.nextNodeId (run (showNotification (utf16 "Saved") .info demoPage)
        [.notify (utf16 "Failed") .error, .elapse 5000]) →
      (run (showNotification (utf16 "Saved") .info demoPage)
        [.notify (utf16 "Failed") .error, .elapse 5000]).now ≤ demoPage.now + 3300) :=
  have h := showNotification_independent demoPage (by decide) (utf16 "Saved") .info
  ⟨by decide, h.1, h.2.2.1 _⟩

/-! ## The analysis cycle -/

theorem Fresh.fresh_trans {s s₁ s₂ : State} (h₁ : Fresh s s₁) (h₂ : Fresh s₁ s₂) : Fresh s s₂ := by
  refine ⟨Nat.le_trans h₁.1 h₂.1, Nat.le_trans h₁.2.1 h₂.2.1, ?_⟩
  intro u hu
  rcases h₂.2.2 u hu with h | h
  · exact h₁.2.2 u h
  · exact Or.inr (Nat.le_trans h₁.1 h)

theorem Bystander.trans {s s₁ s₂ : State} (h₁ : Bystander s s₁) (h₂ : Bystander s₁ s₂) :
    Bystander s s₂ :=
  ⟨h₁.1.fresh_trans h₂.1, h₂.2.1.trans h₁.2.1, h₂.2.2.trans h₁.2.2⟩

theorem bystander_sameCore {s s₂ : State} (hc : SameCore s s₂) : Bystander s s₂ := by
  obtain ⟨c1, c2, c3, c4, c5, c6⟩ := hc
  refine ⟨⟨by rw [c3], by rw [c1], ?_⟩, c6, by simp [pendingAnalyses, c2]⟩
  intro u hu
  rw [c2] at hu
  exact Or.inl hu

theorem fresh_setTimeout (s : State) (cb : Callback) (d : Nat) :
    Fresh s (setTimeout cb d s) := by
  refine ⟨Nat.le_succ _, Nat.le_refl _, ?_⟩
  intro u hu
  simp only [setTimeout, List.mem_append, List.mem_singleton] at hu
  rcases hu with hu | rfl
  · exact Or.inl hu
  · exact Or.inr (Nat.le_refl _)

theorem bystander_setTimeout (s : State) (cb : Callback) (d : Nat)
    (hcb : cb ≠ .analysisDone) : Bystander s (setTimeout cb d s) := by
  refine ⟨fresh_setTimeout s cb d, rfl, ?_⟩
  simp [pendingAnalyses, setTimeout, List.filter_append, hcb]

theorem bystander_showNotification (s : State) (m : JSString) (sev : Severity) :
    Bystander s (showNotification m sev s) := by
  unfold showNotification
  exact Bystander.trans ⟨⟨Nat.le_refl _, Nat.le_refl _, fun u hu => Or.inl hu⟩, rfl, rfl⟩
    (bystander_setTimeout _ _ _ (by simp))

theorem bystander_elapse (s : State) (ms : Nat) : Bystander s (elapse ms s) := by
  refine ⟨⟨?_, elapse_now_le ms s, ?_⟩, ?_, ?_⟩
  · unfold elapse; cases earliest s.timers <;> simp
  · intro u hu
    left
    unfold elapse at hu
    cases h : earliest s.timers <;> simpa [h] using hu
  · unfold elapse; cases earliest s.timers <;> simp
  · unfold elapse; cases earliest s.timers <;> simp [pendingAnalyses]

theorem bystander_notifyFade (s : State) (x : Nat) : Bystander s (notifyFade x s) := by
  unfold notifyFade
  exact Bystander.trans ⟨⟨Nat.le_refl _, Nat.le_refl _, fun u hu => Or.inl hu⟩, rfl, rfl⟩
    (bystander_setTimeout _ _ _ (by simp))

theorem bystander_notifyRemove (s : State) (x : Nat) : Bystander s (notifyRemove x s) :=
  ⟨⟨Nat.le_refl _, Nat.le_refl _, fun _ hu => Or.inl hu⟩, rfl, rfl⟩

theorem fresh_dequeue (s : State) (tm : Timer) : Fresh s (dequeue tm s) :=
  ⟨Nat.le_refl _, Nat.le_max_left _ _, fun _ hu => Or.inl (List.mem_of_mem_erase hu)⟩

theorem bystander_dequeue (s : State) (tm : Timer) (hcb : tm.cb ≠ .analysisDone) :
    Bystander s (dequeue tm s) := by
  refine ⟨fresh_dequeue s tm, rfl, ?_⟩
  exact filter_erase_of_false _ _ _ (by simpa using hcb)

theorem fresh_submitted (s : State) :
    Fresh s (setTimeout .analysisDone 1500
      { s with analyzeBtn := { innerHTML := analyzingLabel, disabled := true } }) :=
  fresh_setTimeout _ _ _

theorem eventShape_cases {e : Event} {s s₂ : State} (hs : EventShape e s s₂) :
    Bystander s s₂ ∨
    (submits s e = true ∧ s₂ = setTimeout .analysisDone 1500
      { s with analyzeBtn := { innerHTML := analyzingLabel, disabled := true } }) := by
  cases hs with
  | quiet hc => exact Or.inl (bystander_sameCore hc)
  | notified m sev hh => rw [hh]; exact Or.inl (bystander_showNotification s m sev)
  | submitted hsub hh => exact Or.inr ⟨hsub, hh⟩
  | copied b html s₁ h₁ hh =>
    rw [hh]
    exact Or.inl ((bystander_sameCore h₁).trans (bystander_setTimeout _ _ _ (by simp)))
  | elapsed ms hh => rw [hh]; exact Or.inl (bystander_elapse s ms)

theorem fresh_eventShape {e : Event} {s s₂ : State} (hs : EventShape e s s₂) :
    Fresh s s₂ := by
  rcases eventShape_cases hs with h | ⟨-, h⟩
  · exact h.1
  · rw [h]; exact fresh_submitted s

theorem bystander_callbackShape {s s₂ : State} {cb : Callback} (hcb : cb ≠ .analysisDone)
    (hs : CallbackShape cb s s₂) : Bystander s s₂ := by
  cases hs with
  | quiet _ _ hc => exact bystander_sameCore hc
  | revealed m s₁ _ _ h₁ hh =>
    rw [hh]
    exact (bystander_sameCore h₁).trans (bystander_setTimeout _ _ _ (by simp))
  | completed hc _ _ _ _ _ _ _ _ => exact absurd hc hcb
  | faded x hc hh => rw [hh]; exact bystander_notifyFade s x
  | removed x hc hh => rw [hh]; exact bystander_notifyRemove s x

theorem fresh_analysisDone (s : State) : Fresh s (analysisDone s) := by
  refine ⟨?_, Nat.le_refl _, ?_⟩
  · simp only [analysisDone, showNotification, displayResults, renderQueryPlan,
      animateMetric, setTimeout, setMetric]
    omega
  · intro u hu
    simp only [analysisDone, showNotification, displayResults, renderQueryPlan, animateMetric,
      setTimeout, setMetric, List.mem_append, List.mem_singleton] at hu
    rcases hu with ((((hu | rfl) | rfl) | rfl) | rfl) | rfl
    · exact Or.inl hu
    all_goals (right; simp only; omega)

theorem fresh_step (s : State) (e : Event) : Fresh s (step s e) := by
  by_cases he : e = .timerFires
  · subst he
    show Fresh s (fireTimer s)
    rcases fireTimer_eq s with ⟨-, h0⟩ | ⟨tm, -, h0⟩
    · rw [h0]; exact ⟨Nat.le_refl _, Nat.le_refl _, fun u hu => Or.inl hu⟩
    · rw [h0]
      apply (fresh_dequeue s tm).fresh_trans
      by_cases hcb : tm.cb = .analysisDone
      · rw [hcb]; exact fresh_analysisDone _
      · exact (bystander_callbackShape hcb (runCallback_shape _ _)).1
  · exact fresh_eventShape (step_shape s e he)

theorem Completed.completed_frame {tid : Nat} {s s₂ : State} (h : Completed tid s) (hf : Fresh s s₂) :
    Completed tid s₂ := by
  refine ⟨Nat.lt_of_lt_of_le h.1 hf.1, ?_⟩
  intro u hu
  rcases hf.2.2 u hu with h1 | h1
  · exact h.2 u h1
  · have := h.1; omega

theorem Analyzing.frame {tid D : Nat} {rest : List Timer} {s s₂ : State}
    (h : Analyzing tid D rest s) (hb : Bystander s s₂) : Analyzing tid D rest s₂ := by
  obtain ⟨a1, a2, a3, a4, a5, a6⟩ := h
  obtain ⟨⟨f1, f2, f3⟩, b2, b3⟩ := hb
  refine ⟨b2.trans a1, Nat.lt_of_lt_of_le a2 f1, by omega, b3.trans a4, a5, ?_⟩
  intro u hu htid
  rcases f3 u hu with h1 | h1
  · exact a6 u h1 htid
  · omega

theorem Analyzing.submitted {tid D : Nat} {rest : List Timer} {s : State}
    (h : Analyzing tid D rest s) :
    Analyzing tid D (rest ++ [{ tid := s.nextTimerId, due := s.now + 1500, cb := .analysisDone }])
      (setTimeout .analysisDone 1500
        { s with analyzeBtn := { innerHTML := analyzingLabel, disabled := true } }) := by
  obtain ⟨a1, a2, a3, a4, a5, a6⟩ := h
  refine ⟨rfl, Nat.lt_succ_of_lt a2, a3, ?_, ?_, ?_⟩
  · have : pendingAnalyses s = s.timers.filter (fun t => decide (t.cb = .analysisDone)) := rfl
    rw [this] at a4
    simp [pendingAnalyses, setTimeout, List.filter_append, a4]
  · intro r hr
    simp only [List.mem_append, List.mem_singleton] at hr
    rcases hr with hr | rfl
    · exact a5 r hr
    · exact ⟨a3, by simp only; omega⟩
  · intro u hu htid
    simp only [setTimeout, List.mem_append, List.mem_singleton] at hu
    rcases hu with hu | rfl
    · exact a6 u hu htid
    · rfl

theorem earliest_filter (p : Timer → Bool) (l : List Timer) (r : Timer)
    (h : earliest l = some r) (hp : p r = true) : earliest (l.filter p) = some r := by
  induction l generalizing r with
  | nil => simp [earliest] at h
  | cons a as ih =>
    unfold earliest at h
    cases hr : earliest as with
    | none =>
      have hnil := earliest_eq_none as hr
      subst hnil
      simp only [hr, Option.some.injEq] at h
      subst h
      simp [List.filter_cons, hp, earliest]
    | some u =>
      simp only [hr] at h
      split_ifs at h with hle
      · simp only [Option.some.injEq] at h
        subst h
        simp only [List.filter_cons, hp, if_true]
        unfold earliest
        cases hw : earliest (as.filter p) with
        | none => rfl
        | some w =>
          have hw1 := List.mem_of_mem_filter (earliest_mem _ _ hw)
          have := earliest_le _ _ hr w hw1
          have hle2 : a.due ≤ w.due := by omega
          simp [hle2]
      · simp only [Option.some.injEq] at h
        subst h
        have ih2 := ih u hr hp
        by_cases hpa : p a = true
        · simp only [List.filter_cons, hpa, if_true]
          unfold earliest
          simp [ih2, hle]
        · simp only [List.filter_cons, hpa, if_false]
          exact ih2

theorem earliest_cons_of_le (tm : Timer) (rest : List Timer)
    (h : ∀ r ∈ rest, tm.due ≤ r.due) : earliest (tm :: rest) = some tm := by
  unfold earliest
  cases hr : earliest rest with
  | none => rfl
  | some u =>
    have := h u (earliest_mem _ _ hr)
    simp [this]

theorem Analyzing.mem {tid D : Nat} {rest : List Timer} {s : State}
    (h : Analyzing tid D rest s) :
    ({ tid := tid, due := D, cb := .analysisDone } : Timer) ∈ s.timers := by
  have : ({ tid := tid, due := D, cb := .analysisDone } : Timer) ∈ pendingAnalyses s := by
    rw [h.2.2.2.1]; exact List.mem_cons_self _ _
  exact List.mem_of_mem_filter this

theorem Analyzing.pending {tid D : Nat} {rest : List Timer} {s : State}
    (h : Analyzing tid D rest s) : timerPending tid s :=
  ⟨_, h.mem, rfl⟩

theorem Completed.not_pending {tid : Nat} {s : State} (h : Completed tid s) :
    ¬ timerPending tid s := by
  rintro ⟨u, hu, htid⟩
  exact h.2 u hu htid

theorem Analyzing.earliest_analysis {tid D : Nat} {rest : List Timer} {s : State}
    (h : Analyzing tid D rest s) (tm₀ : Timer) (he : earliest s.timers = some tm₀)
    (hcb : tm₀.cb = .analysisDone) : tm₀ = { tid := tid, due := D, cb := .analysisDone } := by
  have h1 : earliest (pendingAnalyses s) = some tm₀ :=
    earliest_filter _ _ _ he (by simpa using hcb)
  rw [h.2.2.2.1, earliest_cons_of_le _ _ (fun r hr => (h.2.2.2.2.1 r hr).1)] at h1
  simpa using h1.symm

theorem Analyzing.fired {tid D : Nat} {rest : List Timer} {s : State}
    (h : Analyzing tid D rest s) :
    Completed tid (analysisDone (dequeue { tid := tid, due := D, cb := .analysisDone } s)) ∧
    pendingAnalyses (analysisDone (dequeue { tid := tid, due := D, cb := .analysisDone } s))
      = rest := by
  obtain ⟨a1, a2, a3, a4, a5, a6⟩ := h
  have herase : pendingAnalyses (dequeue { tid := tid, due := D, cb := .analysisDone } s)
      = rest := by
    show (s.timers.erase _).filter _ = rest
    rw [filter_erase_of_true _ _ _ (by simp)]
    have : s.timers.filter (fun t => decide (t.cb = .analysisDone)) = pendingAnalyses s := rfl
    rw [this, a4]
    simp
  constructor
  · apply Completed.completed_frame _ (fresh_analysisDone _)
    refine ⟨a2, ?_⟩
    intro u hu htid
    have hu1 : u ∈ s.timers := List.mem_of_mem_erase hu
    have hcb := a6 u hu1 htid
    have hu2 : u ∈ pendingAnalyses (dequeue { tid := tid, due := D, cb := .analysisDone } s) :=
      List.mem_filter.mpr ⟨hu, by simpa using hcb⟩
    rw [herase] at hu2
    exact (a5 u hu2).2 htid
  · have hb : pendingAnalyses
        (analysisDone (dequeue { tid := tid, due := D, cb := .analysisDone } s))
        = pendingAnalyses (dequeue { tid := tid, due := D, cb := .analysisDone } s) := by
      simp [pendingAnalyses, analysisDone, showNotification, displayResults, renderQueryPlan,
        animateMetric, setTimeout, setMetric, List.filter_append]
    rw [hb, herase]

theorem Completed.completed_after_events {tid : Nat} {s : State} (h : Completed tid s)
    (es : List Event) : Completed tid (run s es) := by
  induction es generalizing s with
  | nil => exact h
  | cons e es ih => exact ih (h.completed_frame (fresh_step s e))

/-- One event during an analysis: the analysis stays in flight, another one is submitted
after it by Ctrl+Enter, or its timer fires and the completion callback runs. -/
theorem Analyzing.after_event {tid D : Nat} {rest : List Timer} {s : State}
    (h : Analyzing tid D rest s) (e : Event) :
    Analyzing tid D rest (step s e) ∨
    (isCtrlEnter e = true ∧
      Analyzing tid D
        (rest ++ [{ tid := s.nextTimerId, due := s.now + 1500, cb := .analysisDone }])
        (step s e)) ∨
    (e = .timerFires ∧
      step s e = analysisDone (dequeue { tid := tid, due := D, cb := .analysisDone } s)) := by
  by_cases he : e = .timerFires
  · subst he
    show Analyzing tid D rest (fireTimer s) ∨ _ ∨ (_ ∧ fireTimer s = _)
    rcases fireTimer_eq s with ⟨-, h0⟩ | ⟨tm, htm, h0⟩
    · rw [h0]; exact Or.inl h
    · by_cases hcb : tm.cb = .analysisDone
      · have := h.earliest_analysis tm htm hcb
        subst this
        exact Or.inr (Or.inr ⟨rfl, h0⟩)
      · left
        rw [h0]
        exact h.frame ((bystander_dequeue s tm hcb).trans
          (bystander_callbackShape hcb (runCallback_shape _ _)))
  · rcases eventShape_cases (step_shape s e he) with hb | ⟨hsub, hh⟩
    · exact Or.inl (h.frame hb)
    · right; left
      have hctrl : isCtrlEnter e = true := by
        cases e with
        | analyzeClick => simp [submits, h.1] at hsub
        | keydown c k => simpa [submits, isCtrlEnter] using hsub
        | _ => simp [submits] at hsub
      refine ⟨hctrl, ?_⟩
      rw [hh]
      exact h.submitted

theorem Analyzing.after_events {tid D : Nat} {rest : List Timer} {s : State}
    (h : Analyzing tid D rest s) (es : List Event) :
    (∃ rest₂, Analyzing tid D rest₂ (run s es)) ∨ Completed tid (run s es) := by
  induction es generalizing s rest with
  | nil => exact Or.inl ⟨rest, h⟩
  | cons e es ih =>
    show (∃ rest₂, Analyzing tid D rest₂ (run (step s e) es)) ∨ Completed tid (run (step s e) es)
    rcases h.after_event e with h1 | ⟨-, h1⟩ | ⟨-, h1⟩
    · exact ih h1
    · exact ih h1
    · right
      rw [h1]
      exact h.fired.1.completed_after_events es

theorem Analyzing.after_events_alone {tid D : Nat} {s : State} (h : Analyzing tid D [] s)
    (es : List Event) (hes : ∀ e ∈ es, isCtrlEnter e = false) :
    Analyzing tid D [] (run s es) ∨ Completed tid (run s es) := by
  induction es generalizing s with
  | nil => exact Or.inl h
  | cons e es ih =>
    have he := hes e (List.mem_cons_self _ _)
    have hes2 : ∀ x ∈ es, isCtrlEnter x = false :=
      fun x hx => hes x (List.mem_cons_of_mem _ hx)
    show Analyzing tid D [] (run (step s e) es) ∨ Completed tid (run (step s e) es)
    rcases h.after_event e with h1 | ⟨hc, -⟩ | ⟨-, h1⟩
    · exact ih h1 hes2
    · rw [he] at hc; exact absurd hc (by simp)
    · right
      rw [h1]
      exact h.fired.1.completed_after_events es

theorem Analyzing.init {s : State} (hwf : WellFormed s) (hidle : Idle s)
    (hq : trim s.queryInput ≠ []) :
    Analyzing s.nextTimerId (s.now + 1500) [] (analyzeQuery s) := by
  have hres : analyzeQuery s = setTimeout .analysisDone 1500
      { s with analyzeBtn := { innerHTML := analyzingLabel, disabled := true } } := by
    simp [analyzeQuery, hq]
  rw [hres]
  refine ⟨rfl, Nat.lt_succ_self _, Nat.le_refl _, ?_, by simp, ?_⟩
  · have h0 : s.timers.filter (fun t => decide (t.cb = .analysisDone)) = [] := hidle.2
    simp [pendingAnalyses, setTimeout, List.filter_append, h0]
  · intro u hu htid
    simp only [setTimeout, List.mem_append, List.mem_singleton] at hu
    rcases hu with hu | rfl
    · have := hwf.2.1 u hu
      omega
    · rfl

/-- The cycle of one analysis submitted while the trigger is enabled and no analysis is in
flight, over every sequence of events. -/
theorem analysis_cycle_of_idle (s : State) (hwf : WellFormed s) (hidle : Idle s)
    (hq : trim s.queryInput ≠ []) :
    s.analyzeBtn.disabled = false ∧
    (analyzeQuery s).analyzeBtn = { innerHTML := analyzingLabel, disabled := true } ∧
    (analyzeQuery s).timers
      = s.timers ++ [{ tid := s.nextTimerId, due := s.now + 1500, cb := .analysisDone }] ∧
    (∀ es, timerPending s.nextTimerId (run (analyzeQuery s) es) →
      (run (analyzeQuery s) es).analyzeBtn = { innerHTML := analyzingLabel, disabled := true }) ∧
    (∀ es e, timerPending s.nextTimerId (run (analyzeQuery s) es) →
      ¬ timerPending s.nextTimerId (step (run (analyzeQuery s) es) e) →
      e = .timerFires ∧
      (step (run (analyzeQuery s) es) e).now = s.now + 1500 ∧
      (step (run (analyzeQuery s) es) e).analyzeBtn = { innerHTML := analyzeLabel, disabled := false } ∧
      (step (run (analyzeQuery s) es) e).emptyResultsDisplay = utf16 "none" ∧
      (step (run (analyzeQuery s) es) e).resultsContentDisplay = utf16 "block" ∧
      (step (run (analyzeQuery s) es) e).execTime.textContent = utf16 "--" ∧
      (step (run (analyzeQuery s) es) e).rowsScanned.textContent = utf16 "--" ∧
      (step (run (analyzeQuery s) es) e).bufferHits.textContent = utf16 "--" ∧
      (step (run (analyzeQuery s) es) e).costEstimate.textContent = utf16 "--" ∧
      (step (run (analyzeQuery s) es) e).optimizedQuery = generateOptimizedQuery (run (analyzeQuery s) es).queryInput ∧
      (step (run (analyzeQuery s) es) e).planTree = planHTML ∧
      (step (run (analyzeQuery s) es) e).notifications = (run (analyzeQuery s) es).notifications ++
        [newNotification (run (analyzeQuery s) es).nextNodeId (utf16 "Analysis complete!") .success] ∧
      (step (run (analyzeQuery s) es) e).timers
        = (run (analyzeQuery s) es).timers.erase { tid := s.nextTimerId, due := s.now + 1500, cb := .analysisDone } ++
          [ { tid := (run (analyzeQuery s) es).nextTimerId, due := s.now + 1500 + 300,
              cb := .metricReveal .execTime (utf16 "142ms") },
            { tid := (run (analyzeQuery s) es).nextTimerId + 1, due := s.now + 1500 + 300,
              cb := .metricReveal .rowsScanned (utf16 "2.3M") },
            { tid := (run (analyzeQuery s) es).nextTimerId + 2, due := s.now + 1500 + 300,
              cb := .metricReveal .bufferHits (utf16 "95.2%") },
            { tid := (run (analyzeQuery s) es).nextTimerId + 3, due := s.now + 1500 + 300,
              cb := .metricReveal .costEstimate (utf16 "1,247") },
            { tid := (run (analyzeQuery s) es).nextTimerId + 4, due := s.now + 1500 + 3000,
              cb := .notifyFade (run (analyzeQuery s) es).nextNodeId } ] ∧
      ((∀ x ∈ es, isCtrlEnter x = false) → Idle (step (run (analyzeQuery s) es) e))) ∧
    (∀ es, ¬ timerPending s.nextTimerId
      (run (analyzeQuery s) (es ++ drain (run (analyzeQuery s) es)))) := by
  have hinit := Analyzing.init hwf hidle hq
  have hwf1 : WellFormed (analyzeQuery s) := by
    have := hwf.wf_after_event (.keydown true (utf16 "Enter"))
    simpa [step] using this
  have hres : analyzeQuery s = setTimeout .analysisDone 1500
      { s with analyzeBtn := { innerHTML := analyzingLabel, disabled := true } } := by
    simp [analyzeQuery, hq]
  refine ⟨hidle.1, hinit.1, by rw [hres]; rfl, ?_, ?_, ?_⟩
  · intro es hp
    rcases hinit.after_events es with ⟨rest, h⟩ | h
    · exact h.1
    · exact absurd hp h.not_pending
  · intro es e hp hnp
    rcases hinit.after_events es with ⟨rest, h⟩ | h
    · rcases h.after_event e with h1 | ⟨-, h1⟩ | ⟨he, h1⟩
      · exact absurd h1.pending hnp
      · exact absurd h1.pending hnp
      · have hclock := (hwf1.wf_after_events es).1 _ h.mem
        simp only at hclock
        have hmax : max (run (analyzeQuery s) es).now (s.now + 1500) = s.now + 1500 := by
          omega
        rw [h1]
        refine ⟨he, hmax, rfl, rfl, rfl, rfl, rfl, rfl, rfl, rfl, rfl, rfl, ?_, ?_⟩
        · simp [analysisDone, showNotification, displayResults, renderQueryPlan,
            animateMetric, setTimeout, setMetric, dequeue, hmax]
        · intro hes
          rcases hinit.after_events_alone es hes with h2 | h2
          · exact ⟨rfl, h2.fired.2⟩
          · exact absurd hp h2.not_pending
    · exact absurd hp h.not_pending
  · intro es
    rintro ⟨u, hu, -⟩
    rw [run_append, drain_timers] at hu
    simp at hu

/-- C5: a query submitted by a click and then again by Ctrl+Enter while the first analysis
runs: when the first completion timer fires, the trigger is enabled with the label
`Analyze Query` while the second analysis is still in flight, so the controller is not
idle.  Apart from that, for a non-blank query submitted while the trigger is enabled and
no analysis is in flight: the trigger is disabled with the working label and the
completion timer is scheduled 1500 ms ahead; whatever happens until that timer fires, the
trigger stays disabled with the working label; the event that fires it leaves the trigger
enabled with the label `Analyze Query`, the result panel shown, the four metrics on their
placeholder with their final values scheduled 300 ms ahead, the optimized query of the
text then in the input, the plan tree and one success notification appended, the clock
standing 1500 ms after the submission; the controller is idle again when no Ctrl+Enter
came in between; and the timer does fire once the pending timers fire.  The metric timers
write the final values, which stand once all timers have fired. -/
theorem analyzeQuery_cycle :
    Idle (run demoPage [.input (utf16 "SELECT 1")]) ∧
    (run demoPage [.input (utf16 "SELECT 1"), .analyzeClick, .keydown true (utf16 "Enter"),
      .timerFires]).analyzeBtn = { innerHTML := analyzeLabel, disabled := false } ∧
    (pendingAnalyses (run demoPage [.input (utf16 "SELECT 1"), .analyzeClick,
      .keydown true (utf16 "Enter"), .timerFires])).length = 1 ∧
    ¬ Idle (run demoPage [.input (utf16 "SELECT 1"), .analyzeClick,
      .keydown true (utf16 "Enter"), .timerFires]) ∧
    (∀ s : State, WellFormed s → Idle s → trim s.queryInput ≠ [] →
      s.analyzeBtn.disabled = false ∧
      (analyzeQuery s).analyzeBtn = { innerHTML := analyzingLabel, disabled := true } ∧
      (analyzeQuery s).timers
        = s.timers ++ [{ tid := s.nextTimerId, due := s.now + 1500, cb := .analysisDone }] ∧
      (∀ es, timerPending s.nextTimerId (run (analyzeQuery s) es) →
        (run (analyzeQuery s) es).analyzeBtn = { innerHTML := analyzingLabel, disabled := true }) ∧
      (∀ es e, timerPending s.nextTimerId (run (analyzeQuery s) es) →
        ¬ timerPending s.nextTimerId (step (run (analyzeQuery s) es) e) →
        e = .timerFires ∧
        (step (run (analyzeQuery s) es) e).now = s.now + 1500 ∧
        (step (run (analyzeQuery s) es) e).analyzeBtn = { innerHTML := analyzeLabel, disabled := false } ∧
        (step (run (analyzeQuery s) es) e).emptyResultsDisplay = utf16 "none" ∧
        (step (run (analyzeQuery s) es) e).resultsContentDisplay = utf16 "block" ∧
        (step (run (analyzeQuery s) es) e).execTime.textContent = utf16 "--" ∧
        (step (run (analyzeQuery s) es) e).rowsScanned.textContent = utf16 "--" ∧
        (step (run (analyzeQuery s) es) e).bufferHits.textContent = utf16 "--" ∧
        (step (run (analyzeQuery s) es) e).costEstimate.textContent = utf16 "--" ∧
        (step (run (analyzeQuery s) es) e).optimizedQuery = generateOptimizedQuery (run (analyzeQuery s) es).queryInput ∧
        (step (run (analyzeQuery s) es) e).planTree = planHTML ∧
        (step (run (analyzeQuery s) es) e).notifications = (run (analyzeQuery s) es).notifications ++
          [newNotification (run (analyzeQuery s) es).nextNodeId (utf16 "Analysis complete!") .success] ∧
        (step (run (analyzeQuery s) es) e).timers
          = (run (analyzeQuery s) es).timers.erase { tid := s.nextTimerId, due := s.now + 1500, cb := .analysisDone } ++
            [ { tid := (run (analyzeQuery s) es).nextTimerId, due := s.now + 1500 + 300,
                cb := .metricReveal .execTime (utf16 "142ms") },
              { tid := (run (analyzeQuery s) es).nextTimerId + 1, due := s.now + 1500 + 300,
                cb := .metricReveal .rowsScanned (utf16 "2.3M") },
              { tid := (run (analyzeQuery s) es).nextTimerId + 2, due := s.now + 1500 + 300,
                cb := .metricReveal .bufferHits (utf16 "95.2%") },
              { tid := (run (analyzeQuery s) es).nextTimerId + 3, due := s.now + 1500 + 300,
                cb := .metricReveal .costEstimate (utf16 "1,247") },
              { tid := (run (analyzeQuery s) es).nextTimerId + 4, due := s.now + 1500 + 3000,
                cb := .notifyFade (run (analyzeQuery s) es).nextNodeId } ] ∧
        ((∀ x ∈ es, isCtrlEnter x = false) → Idle (step (run (analyzeQuery s) es) e))) ∧
      (∀ es, ¬ timerPending s.nextTimerId
        (run (analyzeQuery s) (es ++ drain (run (analyzeQuery s) es))))) ∧
    (∀ (s : State) (m : MetricId) (v : JSString),
      getMetric m (metricReveal m v s) = { textContent := v, transform := utf16 "scale(1.1)" } ∧
      (metricReveal m v s).timers
        = s.timers ++ [{ tid := s.nextTimerId, due := s.now + 200, cb := .metricSettle m }] ∧
      getMetric m (metricSettle m s) = { getMetric m s with transform := utf16 "scale(1)" }) ∧
    (run demoPage ([.input (utf16 "SELECT 1"), .analyzeClick]
        ++ List.replicate 11 .timerFires)).timers = [] ∧
    (run demoPage ([.input (utf16 "SELECT 1"), .analyzeClick]
        ++ List.replicate 11 .timerFires)).execTime
      = { textContent := utf16 "142ms", transform := utf16 "scale(1)" } ∧
    (run demoPage ([.input (utf16 "SELECT 1"), .analyzeClick]
        ++ List.replicate 11 .timerFires)).rowsScanned
      = { textContent := utf16 "2.3M", transform := utf16 "scale(1)" } ∧
    (run demoPage ([.input (utf16 "SELECT 1"), .analyzeClick]
        ++ List.replicate 11 .timerFires)).bufferHits
      = { textContent := utf16 "95.2%", transform := utf16 "scale(1)" } ∧
    (run demoPage ([.input (utf16 "SELECT 1"), .analyzeClick]
        ++ List.replicate 11 .timerFires)).costEstimate
      = { textContent := utf16 "1,247", transform := utf16 "scale(1)" } := by
  refine ⟨by decide, by decide, by decide, by decide, analysis_cycle_of_idle, ?_,
    by decide, by decide, by decide, by decide, by decide⟩
  intro s m v
  refine ⟨?_, ?_, ?_⟩
  · cases m <;> rfl
  · cases m <;> rfl
  · cases m <;> rfl

/-! ## At most one analysis under clicks -/

theorem Analyzing.of_submit {s : State} (hwf : WellFormed s) (h0 : pendingAnalyses s = []) :
    Analyzing s.nextTimerId (s.now + 1500) []
      (setTimeout .analysisDone 1500
        { s with analyzeBtn := { innerHTML := analyzingLabel, disabled := true } }) := by
  refine ⟨rfl, Nat.lt_succ_self _, Nat.le_refl _, ?_, by simp, ?_⟩
  · have h1 : s.timers.filter (fun t => decide (t.cb = .analysisDone)) = [] := h0
    simp [pendingAnalyses, setTimeout, List.filter_append, h1]
  · intro u hu htid
    simp only [setTimeout, List.mem_append, List.mem_singleton] at hu
    rcases hu with hu | rfl
    · have := hwf.2.1 u hu
      omega
    · rfl

theorem one_analysis_after_event {s : State} (hwf : WellFormed s)
    (h : pendingAnalyses s = [] ∨ ∃ tid D, Analyzing tid D [] s) (e : Event)
    (he : isCtrlEnter e = false) :
    pendingAnalyses (step s e) = [] ∨ ∃ tid D, Analyzing tid D [] (step s e) := by
  rcases h with h0 | ⟨tid, D, ha⟩
  · by_cases hf : e = .timerFires
    · subst hf
      left
      show pendingAnalyses (fireTimer s) = []
      rcases fireTimer_eq s with ⟨-, h1⟩ | ⟨tm, htm, h1⟩
      · rw [h1]; exact h0
      · have hcb : tm.cb ≠ .analysisDone := by
          intro hcb
          have : tm ∈ pendingAnalyses s :=
            List.mem_filter.mpr ⟨earliest_mem _ _ htm, by simpa using hcb⟩
          rw [h0] at this
          simp at this
        rw [h1]
        have hb := (bystander_dequeue s tm hcb).trans
          (bystander_callbackShape hcb (runCallback_shape tm.cb (dequeue tm s)))
        rw [hb.2.2]; exact h0
    · rcases eventShape_cases (step_shape s e hf) with hb | ⟨-, hh⟩
      · left; rw [hb.2.2]; exact h0
      · right
        rw [hh]
        exact ⟨_, _, Analyzing.of_submit hwf h0⟩
  · rcases ha.after_event e with h1 | ⟨hc, -⟩ | ⟨-, h1⟩
    · exact Or.inr ⟨tid, D, h1⟩
    · rw [he] at hc; exact absurd hc (by simp)
    · left
      rw [h1]
      exact ha.fired.2

theorem one_analysis_after_events {s : State} (hwf : WellFormed s)
    (h : pendingAnalyses s = [] ∨ ∃ tid D, Analyzing tid D [] s) (es : List Event)
    (hes : ∀ e ∈ es, isCtrlEnter e = false) :
    pendingAnalyses (run s es) = [] ∨ ∃ tid D, Analyzing tid D [] (run s es) := by
  induction es generalizing s with
  | nil => exact h
  | cons e es ih =>
    exact ih (hwf.wf_after_event e)
      (one_analysis_after_event hwf h e (hes e (List.mem_cons_self _ _)))
      (fun x hx => hes x (List.mem_cons_of_mem _ hx))

/-- C4: two Ctrl+Enter key presses on a non-empty query leave two completion timers
pending, the trigger being disabled by the first; with clicks on the trigger in place of
Ctrl+Enter, at most one completion timer is ever pending. -/
theorem ctrlEnter_overlapping_analyses :
    (run demoPage [.input (utf16 "SELECT 1"), .keydown true (utf16 "Enter")]).analyzeBtn.disabled
      = true ∧
    (pendingAnalyses (run demoPage [.input (utf16 "SELECT 1"), .keydown true (utf16 "Enter"),
      .keydown true (utf16 "Enter")])).length = 2 ∧
    (∀ (s : State) (es : List Event), WellFormed s → pendingAnalyses s = [] →
      (∀ e ∈ es, isCtrlEnter e = false) → (pendingAnalyses (run s es)).length ≤ 1) := by
  refine ⟨by decide, by decide, ?_⟩
  intro s es hwf h0 hes
  rcases one_analysis_after_events hwf (Or.inl h0) es hes with h | ⟨tid, D, h⟩
  · simp [h]
  · simp [h.2.2.2.1]

/-! ## Copy buttons -/

/-- C9: two successful copy clicks on one button before the first revert timer fires leave
the button showing the confirmation glyph once both revert timers have fired, where one
successful copy alone registers the timer that puts the original content back.  A write
that settles after the clicked element was replaced raises a `TypeError` and changes
nothing. -/
theorem copy_twice_keeps_glyph :
    (demoPage.codeBlocks.map (fun c => c.btnHTML)) = [utf16 "Copy"] ∧
    (run demoPage [.copyClick 0, .clipboardSettled 0 true, .copyClick 0,
      .clipboardSettled 0 true, .timerFires, .timerFires]).timers = [] ∧
    ((run demoPage [.copyClick 0, .clipboardSettled 0 true, .copyClick 0,
      .clipboardSettled 0 true, .timerFires, .timerFires]).codeBlocks.map
        (fun c => c.btnHTML)) = [confirmationGlyph] ∧
    ((run demoPage [.copyClick 0, .clipboardSettled 0 true, .timerFires]).codeBlocks.map
        (fun c => c.btnHTML)) = [utf16 "Copy"] ∧
    (∀ (s : State) (b : Nat) (c : CodeBlock) (target : ClickTarget),
      s.codeBlocks[b]? = some c → target.attached c = true →
      (copySucceeded b target s).2 = none ∧
      (copySucceeded b target s).1.timers
        = s.timers ++ [{ tid := s.nextTimerId, due := s.now + 2000, cb := .copyRevert b c.btnHTML }] ∧
      (copySucceeded b target s).1.codeBlocks[b]?
        = some { c with
            btnHTML := confirmationGlyph
            btnColor := utf16 "var(--accent-primary)"
            btnContent := c.btnContent + 1 } ∧
      (copyRevert b c.btnHTML (copySucceeded b target s).1).codeBlocks[b]?
        = some { c with btnColor := [], btnContent := c.btnContent + 1 + 1 }) ∧
    (∀ (s : State) (b : Nat) (c : CodeBlock) (target : ClickTarget),
      s.codeBlocks[b]? = some c → target.attached c = false →
      copySucceeded b target s = (s, some JSError.typeError)) ∧
    ((run demoPage [.copyClick 0, .clipboardSettled 0 true, .copyClickInside 0, .timerFires,
      .clipboardSettled 0 true]).codeBlocks.map (fun c => c.btnHTML)) = [utf16 "Copy"] ∧
    (run demoPage [.copyClick 0, .clipboardSettled 0 true, .copyClickInside 0, .timerFires,
      .clipboardSettled 0 true]).timers = [] := by
  refine ⟨by decide, by decide, by decide, by decide, ?_, ?_, by decide, by decide⟩
  · intro s b c target hc ha
    refine ⟨?_, ?_, ?_, ?_⟩
    · simp [copySucceeded, hc, ha]
    · simp [copySucceeded, hc, ha, setTimeout]
    · simp [copySucceeded, hc, ha, setTimeout, getElem?_updateAt]
    · simp [copyRevert, copySucceeded, hc, ha, setTimeout, getElem?_updateAt]
  · intro s b c target hc ha
    simp [copySucceeded, hc, ha]

/-! ## Navigation to an unknown view -/

/-- C7: a click on a navigation item whose view does not exist raises a `TypeError` and
leaves no view active and the clicked item marked, where before the first view and the
first item were; so it is for every page and every item without an element of its id. -/
theorem handleNavigation_unknown_view :
    (handleNavigation 2 demoPage).2 = some JSError.typeError ∧
    activeViews demoPage = [0] ∧
    activeViews (handleNavigation 2 demoPage).1 = [] ∧
    activeNavItems demoPage = [0] ∧
    activeNavItems (handleNavigation 2 demoPage).1 = [2] ∧
    (∀ (s : State) (i : Nat) (item : NavItem), s.navItems[i]? = some item →
      getElementById (interpolate item.dataView ++ utf16 "-view") s.doc = none →
      (handleNavigation i s).2 = some JSError.typeError ∧
      activeViews (handleNavigation i s).1 = [] ∧
      activeNavItems (handleNavigation i s).1 = [i]) := by
  refine ⟨by decide, by decide, by decide, by decide, by decide, ?_⟩
  intro s i item hitem hfind
  have hfind2 : getElementById (interpolate item.dataView ++ utf16 "-view")
      (s.views.foldl (fun d v => updateAt Elem.deactivate v d) s.doc) = none := by
    rw [getElementById_congr _ _ _ (ids_deactivateViews s.views s.doc)]
    exact hfind
  have hres : handleNavigation i s =
      ({ s with
          navItems := updateAt NavItem.activate i (s.navItems.map NavItem.deactivate)
          doc := s.views.foldl (fun d v => updateAt Elem.deactivate v d) s.doc },
        some .typeError) := by
    simp only [handleNavigation, hitem, hfind2]
  rw [hres]
  refine ⟨rfl, ?_, ?_⟩
  · unfold activeViews
    rw [List.filter_eq_nil_iff]
    intro v hv
    simp only [viewActive, getElem?_deactivateViews, hv, if_true]
    cases h : s.doc[v]? with
    | none => simp
    | some e2 => simp [Elem.deactivate, active_not_mem_classRemove]
  · have hi : i < s.navItems.length := by
      rcases List.getElem?_eq_some.mp hitem with ⟨h, -⟩
      exact h
    have hlen : (updateAt NavItem.activate i (s.navItems.map NavItem.deactivate)).length
        = s.navItems.length := by simp [updateAt_length]
    unfold activeNavItems
    simp only [hlen]
    apply filter_eq_singleton _ _ _ (List.nodup_range _) (List.mem_range.mpr hi)
    intro m hm
    simp only [navActive, getElem?_updateAt, List.getElem?_map]
    by_cases hmi : m = i
    · subst hmi
      simp [hitem, NavItem.activate, NavItem.deactivate, active_mem_classAdd]
    · cases h : s.navItems[m]? with
      | none => simp [hmi]
      | some it => simp [hmi, NavItem.deactivate, active_not_mem_classRemove]

end QueryOptim
